import Mathlib

/-!
Shallow embedding of the finzz-backend transaction-lifecycle and
monthly-summary engine.

Sources embedded:
* `src/services/summaryService.ts` — `getYearMonth`, `updateSummaryOnAdd`,
  `updateSummaryOnDelete`, `updateSummaryOnEdit`, `getCarryForward`.
* `src/controllers/txController.ts` — `addtxns`, `getTxns`, `verifyTxn`,
  `editTxn`, `deleteTxn`.
* `src/middlewares/validation.ts` — `addTxnSchema` and the `validate`
  middleware wrapper.
* `src/models/txModel.ts` — the mongoose schema constraint `amount: min 0`
  that runs on `save()` / `create()`.
* `src/models/monthlySummaryModel.ts` — one summary document per
  (chatId, year, month), `members` map with per-member totals, `txCount`.

Modelling conventions:
* JS `Date` values are modelled as calendar triples (year, human month 1-12,
  day); comparison of `Date` objects (millisecond timestamps in JS) is the
  lexicographic order on these triples.  Sub-day time resolution is not
  modelled; it plays no role in any verified property.
* MongoDB documents keyed by (chatId, year, month) are modelled as a total
  function from keys to `Option SummaryDoc` (`none` = document absent).
  `$inc` with `upsert:true` materialises an absent document as all-zero and
  then increments; `$inc` without upsert on an absent document is a no-op,
  exactly as `updateOne` matches nothing.
* The mongoose `members` map is modelled as a total function
  `String → MStats`: a `$inc` on a missing member path creates it from 0,
  so absent members are indistinguishable from all-zero members for the
  aggregate (the carry-forward reader, which iterates only the members
  present in a document, gets its own faithful association-list model
  further below).
* Fire-and-forget push notifications and the denormalized
  `chat.lastTransaction` cache are outside the modelled state: no verified
  claim mentions them and they read/write no field the claims are about.
* ObjectId values are `String`s; the `addTxnSchema` regex checks are
  modelled character by character.
-/

/-- Calendar date standing for a JS `Date` (year, human month 1-12, day). -/
structure DateT where
  year : Int
  month : Int
  day : Int
deriving DecidableEq, Repr

/-- JS `Date` comparison (timestamp order), as the lexicographic order on
(year, month, day). -/
def dateLt (a b : DateT) : Bool :=
  a.year < b.year ∨
    (a.year = b.year ∧
      (a.month < b.month ∨ (a.month = b.month ∧ a.day < b.day)))

/-- `new Date(now.getFullYear(), now.getMonth(), 1)` — start of the month of
`now` (the JS constructor month index is 0-based, hence the stored human
month denotes the same month). -/
def monthStart (now : DateT) : DateT :=
  ⟨now.year, now.month, 1⟩

/-- `getYearMonth` from summaryService.ts:
`{ year: d.getFullYear(), month: d.getMonth() + 1 }`. -/
def getYearMonth (d : DateT) : Int × Int :=
  (d.year, d.month)

/-- Per-member totals inside a MonthlySummary `members` map entry. -/
structure MStats where
  totalSent : Int
  totalReceived : Int
deriving DecidableEq, Repr

/-- A MonthlySummary document body: the `members` map (total function with
0-default, matching `$inc` path creation) and `txCount`. -/
structure SummaryDoc where
  members : String → MStats
  txCount : Int

/-- Key of a MonthlySummary document: (chatId, year, month). -/
abbrev SKey := String × Int × Int

/-- The MonthlySummary collection: key to optional document. -/
abbrev SummaryMap := SKey → Option SummaryDoc

def zeroStats : MStats := ⟨0, 0⟩

def zeroDoc : SummaryDoc := ⟨fun _ => zeroStats, 0⟩

/-- One `$inc` payload touching `members.<fromU>.totalSent`,
`members.<toU>.totalReceived` (both by `a`) and `txCount` (by `dCount`). -/
def incDoc (doc : SummaryDoc) (fromU toU : String) (a dCount : Int) :
    SummaryDoc :=
  { members := fun u =>
      { totalSent := (doc.members u).totalSent + (if u = fromU then a else 0)
        totalReceived :=
          (doc.members u).totalReceived + (if u = toU then a else 0) }
    txCount := doc.txCount + dCount }

/-- `updateSummaryOnAdd` (summaryService.ts): atomic `$inc` with
`upsert: true` on the (chatId, year, month) document. -/
def updateSummaryOnAdd (m : SummaryMap) (chatId : String) (txDate : DateT)
    (fromUserId toUserId : String) (amount : Int) : SummaryMap :=
  let ym := getYearMonth txDate
  let key : SKey := (chatId, ym.1, ym.2)
  fun k =>
    if k = key then some (incDoc ((m key).getD zeroDoc) fromUserId toUserId amount 1)
    else m k

/-- `updateSummaryOnDelete` (summaryService.ts): the negated `$inc`, with
no upsert — a missing document is left missing. -/
def updateSummaryOnDelete (m : SummaryMap) (chatId : String) (txDate : DateT)
    (fromUserId toUserId : String) (amount : Int) : SummaryMap :=
  let ym := getYearMonth txDate
  let key : SKey := (chatId, ym.1, ym.2)
  fun k =>
    if k = key then (m key).map (fun doc => incDoc doc fromUserId toUserId (-amount) (-1))
    else m k

/-- The (date, from, to, amount) projection of a transaction handed to
`updateSummaryOnEdit`. -/
structure TxFields where
  date : DateT
  fromU : String
  toU : String
  amount : Int
deriving DecidableEq, Repr

/-- `updateSummaryOnEdit` (summaryService.ts): same-month same-direction
edits apply one signed `diff` `$inc` (skipped when `diff == 0`, no upsert);
otherwise reverse the old transaction and apply the new one. -/
def updateSummaryOnEdit (m : SummaryMap) (chatId : String)
    (oldTx newTx : TxFields) : SummaryMap :=
  let oldYM := getYearMonth oldTx.date
  let newYM := getYearMonth newTx.date
  let sameMonth := oldYM.1 = newYM.1 ∧ oldYM.2 = newYM.2
  let sameDirection := oldTx.fromU = newTx.fromU ∧ oldTx.toU = newTx.toU
  if sameMonth ∧ sameDirection then
    let diff := newTx.amount - oldTx.amount
    if diff = 0 then m
    else
      let key : SKey := (chatId, oldYM.1, oldYM.2)
      fun k =>
        if k = key then (m key).map (fun doc => incDoc doc oldTx.fromU oldTx.toU diff 0)
        else m k
  else
    updateSummaryOnAdd
      (updateSummaryOnDelete m chatId oldTx.date oldTx.fromU oldTx.toU oldTx.amount)
      chatId newTx.date newTx.fromU newTx.toU newTx.amount

/-- A ledger transaction document (txModel.ts). -/
structure Txn where
  id : Nat
  chatId : String
  amount : Int
  date : DateT
  remarks : Option String
  toU : String
  fromU : String
  addedBy : String
  verified : Bool
  verifiedBy : Option String
  verifiedAt : Option DateT
deriving DecidableEq, Repr

/-- The persistent state the transaction lifecycle touches: the Tx
collection, the MonthlySummary collection, the (read-only here) Chat
membership lists, and the id counter standing for fresh ObjectId creation. -/
structure ServerState where
  txs : List Txn
  summaries : SummaryMap
  chats : String → Option (List String)
  nextId : Nat

/-- The typed errors produced by the lifecycle controllers, one constructor
per `ErrorHandler` site in txController.ts (plus the `validate` middleware
rejection and the mongoose save-validation failure). -/
inductive TxError where
  | validationFailed
  | closedPeriodAdd
  | chatNotFound
  | notChatMember
  | txnNotFound
  | notOwnTxnVerify
  | alreadyVerified
  | notOwnTxnEdit
  | editVerified
  | closedPeriodNewDate
  | closedPeriodOrigDate
  | notOwnTxnDelete
  | deleteVerified
  | saveValidation
deriving DecidableEq, Repr

/-- The error classes of the specification taxonomy (§7). -/
def isClosedPeriod : TxError → Bool
  | .closedPeriodAdd => true
  | .closedPeriodNewDate => true
  | .closedPeriodOrigDate => true
  | _ => false

def isInvalidState : TxError → Bool
  | .alreadyVerified => true
  | .editVerified => true
  | .deleteVerified => true
  | _ => false

def isForbidden : TxError → Bool
  | .notChatMember => true
  | .notOwnTxnVerify => true
  | .notOwnTxnEdit => true
  | .notOwnTxnDelete => true
  | _ => false

def isValidationError : TxError → Bool
  | .validationFailed => true
  | .saveValidation => true
  | _ => false

/-- Request body of `POST /createtx`. -/
structure AddBody where
  chatId : String
  amount : Int
  date : DateT
  remarks : Option String
  toU : String
  fromU : String
deriving DecidableEq, Repr

/-- Request body of `PUT /edittx/:txnId` (all fields optional; no schema
validation is attached to this route). -/
structure EditBody where
  amount : Option Int
  date : Option DateT
  remarks : Option String
  toU : Option String
  fromU : Option String
deriving DecidableEq, Repr

/-- One character of a 24-hex-digit ObjectId literal. -/
def isHexDigit (c : Char) : Bool :=
  c.isDigit ∨ (Char.ofNat 97 ≤ c ∧ c ≤ Char.ofNat 102) ∨
    (Char.ofNat 65 ≤ c ∧ c ≤ Char.ofNat 70)

/-- `/^[0-9a-fA-F]{24}$/` from addTxnSchema. -/
def isHex24 (s : String) : Bool :=
  s.length = 24 && s.toList.all isHexDigit

/-- Well-formedness of a parsed ISO-8601 datetime
(`z.string().datetime()`). -/
def dateWellFormed (d : DateT) : Bool :=
  1 ≤ d.month ∧ d.month ≤ 12 ∧ 1 ≤ d.day ∧ d.day ≤ 31

/-- `addTxnSchema` (validation.ts): chatId/to/from must be 24-hex ObjectId
strings, `amount` must be positive, `date` must be a valid ISO datetime;
`remarks` is optional and unconstrained.  Note that the schema places no
relation between `to` and `from`. -/
def addTxnSchemaOk (b : AddBody) : Bool :=
  isHex24 b.chatId && (0 < b.amount : Bool) && dateWellFormed b.date &&
    isHex24 b.toU && isHex24 b.fromU

/-- `_id` equality test used by `Tx.findById`. -/
def hasId (i : Nat) (t : Txn) : Bool :=
  t.id == i

/-- Survival test used by `Tx.findByIdAndDelete` (keep every other doc). -/
def notId (i : Nat) (t : Txn) : Bool :=
  !(t.id == i)

/-- In-place document replacement used for `txn.save()` after a findById:
the matched document is overwritten, every other document is untouched. -/
def setTx (i : Nat) (t1 x : Txn) : Txn :=
  if x.id = i then t1 else x

/-- `Tx.findById` — the Tx collection lookup. -/
def findTx (s : ServerState) (txnId : Nat) : Option Txn :=
  s.txs.find? (hasId txnId)

/-- `addtxns` (txController.ts): closed-month guard on the payload date,
chat existence, membership, then `Tx.create` followed by
`updateSummaryOnAdd`. -/
def addtxns (now : DateT) (userId : String) (b : AddBody)
    (s : ServerState) : Except TxError ServerState :=
  if dateLt b.date (monthStart now) then .error .closedPeriodAdd
  else
    match s.chats b.chatId with
    | none => .error .chatNotFound
    | some members =>
      if userId ∈ members then
        let txn : Txn :=
          { id := s.nextId, chatId := b.chatId, amount := b.amount
            date := b.date, remarks := b.remarks, toU := b.toU
            fromU := b.fromU, addedBy := userId, verified := false
            verifiedBy := none, verifiedAt := none }
        .ok { s with
                txs := txn :: s.txs
                nextId := s.nextId + 1
                summaries :=
                  updateSummaryOnAdd s.summaries b.chatId b.date b.fromU
                    b.toU b.amount }
      else .error .notChatMember

/-- `POST /createtx` = `validate(addTxnSchema)` then `addtxns`
(txnRoutes.ts). -/
def addRoute (now : DateT) (userId : String) (b : AddBody)
    (s : ServerState) : Except TxError ServerState :=
  if addTxnSchemaOk b then addtxns now userId b s
  else .error .validationFailed

/-- `verifyTxn` (txController.ts): not-found, own-transaction (403) and
already-verified (400) guards, then set `verified/verifiedBy/verifiedAt`.
The MonthlySummary collection is not touched and no chat-membership or
closed-month check is performed. -/
def verifyTxn (now : DateT) (userId : String) (txnId : Nat)
    (s : ServerState) : Except TxError ServerState :=
  match findTx s txnId with
  | none => .error .txnNotFound
  | some t =>
    if t.addedBy = userId then .error .notOwnTxnVerify
    else if t.verified then .error .alreadyVerified
    else
      .ok { s with
              txs := s.txs.map (setTx txnId
                { t with verified := true, verifiedBy := some userId
                         verifiedAt := some now }) }

/-- The `// Update fields` block of `editTxn`: each supplied field
overwrites the stored one. -/
def applyEdit (t : Txn) (b : EditBody) : Txn :=
  { t with
      amount := b.amount.getD t.amount
      date := b.date.getD t.date
      remarks := match b.remarks with
                 | some r => some r
                 | none => t.remarks
      toU := b.toU.getD t.toU
      fromU := b.fromU.getD t.fromU }

/-- `editTxn` (txController.ts): not-found, ownership, verified,
new-date-closed (only when a date is supplied) and original-date-closed
guards, in source order; then the field patch, the mongoose save validation
(`amount: min 0` in txModel.ts) and `updateSummaryOnEdit` on the old/new
snapshots. -/
def editTxn (now : DateT) (userId : String) (txnId : Nat) (b : EditBody)
    (s : ServerState) : Except TxError ServerState :=
  match findTx s txnId with
  | none => .error .txnNotFound
  | some t =>
    if ¬ (t.addedBy = userId) then .error .notOwnTxnEdit
    else if t.verified then .error .editVerified
    else if (match b.date with
             | some nd => dateLt nd (monthStart now)
             | none => false) then .error .closedPeriodNewDate
    else if dateLt t.date (monthStart now) then .error .closedPeriodOrigDate
    else if (applyEdit t b).amount < 0 then .error .saveValidation
    else
      .ok { s with
              txs := s.txs.map (setTx txnId (applyEdit t b))
              summaries :=
                updateSummaryOnEdit s.summaries t.chatId
                  ⟨t.date, t.fromU, t.toU, t.amount⟩
                  ⟨(applyEdit t b).date, (applyEdit t b).fromU,
                   (applyEdit t b).toU, (applyEdit t b).amount⟩ }

/-- `deleteTxn` (txController.ts): not-found, ownership and verified guards
— and no closed-month guard — then `updateSummaryOnDelete` with the
pre-delete field values and `Tx.findByIdAndDelete`.  The `now` clock is
unused, faithfully to the source. -/
def deleteTxn (_now : DateT) (userId : String) (txnId : Nat)
    (s : ServerState) : Except TxError ServerState :=
  match findTx s txnId with
  | none => .error .txnNotFound
  | some t =>
    if ¬ (t.addedBy = userId) then .error .notOwnTxnDelete
    else if t.verified then .error .deleteVerified
    else
      .ok { s with
              summaries :=
                updateSummaryOnDelete s.summaries t.chatId t.date t.fromU
                  t.toU t.amount
              txs := s.txs.filter (notId txnId) }

/-- One lifecycle request, carrying the wall clock at which it runs. -/
inductive Op where
  | add (now : DateT) (userId : String) (b : AddBody)
  | edit (now : DateT) (userId : String) (txnId : Nat) (b : EditBody)
  | delete (now : DateT) (userId : String) (txnId : Nat)
  | verify (now : DateT) (userId : String) (txnId : Nat)

/-- Run one request; a rejected request leaves the state unchanged (every
controller returns an error strictly before its first write). -/
def execOp (s : ServerState) : Op → ServerState
  | .add now u b =>
    match addRoute now u b s with
    | .ok s1 => s1
    | .error _ => s
  | .edit now u i b =>
    match editTxn now u i b s with
    | .ok s1 => s1
    | .error _ => s
  | .delete now u i =>
    match deleteTxn now u i s with
    | .ok s1 => s1
    | .error _ => s
  | .verify now u i =>
    match verifyTxn now u i s with
    | .ok s1 => s1
    | .error _ => s

/-- The state of a fresh deployment: no transactions, no summary documents;
chat membership is fixed ambient data. -/
def initState (chats : String → Option (List String)) : ServerState :=
  { txs := [], summaries := fun _ => none, chats := chats, nextId := 0 }

/-- Run a request sequence from the fresh state. -/
def execOps (chats : String → Option (List String)) (ops : List Op) :
    ServerState :=
  ops.foldl execOp (initState chats)

/-! ## Direct aggregation over the ledger (the specification side of the
MonthlySummary invariant) -/

/-- The (chatId, year, month) key a transaction is aggregated under. -/
def keyOf (t : Txn) : SKey :=
  (t.chatId, (getYearMonth t.date).1, (getYearMonth t.date).2)

/-- Sum of a per-transaction integer weight over the ledger. -/
def wsum (f : Txn → Int) (l : List Txn) : Int :=
  (l.map f).sum

/-- Contribution of a transaction to `totalSent` of member `u` in period
`k`. -/
def sentW (k : SKey) (u : String) (t : Txn) : Int :=
  if keyOf t = k ∧ t.fromU = u then t.amount else 0

/-- Contribution of a transaction to `totalReceived` of member `u` in
period `k`. -/
def recvW (k : SKey) (u : String) (t : Txn) : Int :=
  if keyOf t = k ∧ t.toU = u then t.amount else 0

/-- Contribution of a transaction to `txCount` of period `k`. -/
def cntW (k : SKey) (t : Txn) : Int :=
  if keyOf t = k then 1 else 0

/-- The summary document stored for key `k`, reading an absent document as
all-zero (the engine treats not-found as all-zero). -/
def statsAt (s : ServerState) (k : SKey) : SummaryDoc :=
  (s.summaries k).getD zeroDoc

/-- Central invariant: every stored aggregate equals the direct sum over
the transactions actually present. -/
def SummaryInv (s : ServerState) : Prop :=
  ∀ k u, ((statsAt s k).members u).totalSent = wsum (sentW k u) s.txs ∧
    ((statsAt s k).members u).totalReceived = wsum (recvW k u) s.txs ∧
    (statsAt s k).txCount = wsum (cntW k) s.txs

/-- Auxiliary invariant: every transaction's period has a materialised
summary document (so the un-upserted `$inc`s always match). -/
def PresenceInv (s : ServerState) : Prop :=
  ∀ t ∈ s.txs, (s.summaries (keyOf t)).isSome

/-- Auxiliary invariant: ids are fresh and pairwise distinct. -/
def IdInv (s : ServerState) : Prop :=
  (∀ t ∈ s.txs, t.id < s.nextId) ∧ (s.txs.map Txn.id).Nodup

def LedgerInv (s : ServerState) : Prop :=
  SummaryInv s ∧ PresenceInv s ∧ IdInv s
/-! ## Carry-forward calculator (`getCarryForward`, summaryService.ts)

The reader iterates the member entries actually present in each stored
document, so here MonthlySummary documents are modelled with their
`members` map as an association list (insertion order, as a lean Mongo
document read), and the JS accumulator object `netBalances` as an
association list with JS object semantics: assigning an existing key
updates it in place, assigning a fresh key appends it. -/

/-- A MonthlySummary document as read by `MonthlySummary.find().lean()`. -/
structure MonthlySummaryDoc where
  chatId : String
  year : Int
  month : Int
  members : List (String × MStats)
  txCount : Int
deriving DecidableEq, Repr

/-- The Mongo filter
`{ chatId, $or: [{year: {$lt}}, {year, month: {$lt}}] }`. -/
def priorToMonth (chatId : String) (year month : Int)
    (d : MonthlySummaryDoc) : Bool :=
  d.chatId = chatId ∧ (d.year < year ∨ (d.year = year ∧ d.month < month))

/-- `.sort({ year: 1, month: 1 })`. -/
def ymLeDoc (d1 d2 : MonthlySummaryDoc) : Prop :=
  d1.year < d2.year ∨ (d1.year = d2.year ∧ d1.month ≤ d2.month)

instance : DecidableRel ymLeDoc := fun d1 d2 =>
  inferInstanceAs (Decidable
    (d1.year < d2.year ∨ (d1.year = d2.year ∧ d1.month ≤ d2.month)))

/-- JS object update `r[u] = v`: overwrite in place if the key exists,
append otherwise. -/
def recSet (r : List (String × Int)) (u : String) (v : Int) :
    List (String × Int) :=
  if (List.lookup u r).isSome then
    r.map (fun p => if p.1 = u then (u, v) else p)
  else r ++ [(u, v)]

/-- The inner `for (const [userId, stats] of entries)` loop:
`netBalances[userId] = (netBalances[userId] || 0) + (totalReceived - totalSent)`. -/
def accumMembers (acc : List (String × Int))
    (entries : List (String × MStats)) : List (String × Int) :=
  entries.foldl (fun acc2 e =>
    recSet acc2 e.1
      (((List.lookup e.1 acc2).getD 0) +
        (e.2.totalReceived - e.2.totalSent))) acc

/-- The net a single stored document contributes for one member:
`(totalReceived || 0) - (totalSent || 0)` when the member is present in the
document's `members` map, nothing (0) otherwise. -/
def netOf (u : String) (d : MonthlySummaryDoc) : Int :=
  match List.lookup u d.members with
  | some st => st.totalReceived - st.totalSent
  | none => 0

/-- `getCarryForward` (summaryService.ts): fetch every summary of the chat
strictly before (year, month), ascending by (year, month), and fold the
per-member nets into `netBalances`. -/
def getCarryForward (docs : List MonthlySummaryDoc) (chatId : String)
    (year month : Int) : List (String × Int) :=
  let priorSummaries :=
    (docs.filter (priorToMonth chatId year month)).insertionSort ymLeDoc
  priorSummaries.foldl (fun acc summary => accumMembers acc summary.members) []

/-! ## Cursor pagination (`getTxns`, txController.ts)

The cursor travels as `date.toISOString()` and is parsed back with
`new Date(cursor)`, an identity round trip on the date value, so it is
modelled as the `DateT` itself. -/

/-- `.sort({ date: -1, _id: -1 })`: `a` may precede `b`. -/
def txLe (a b : Txn) : Prop :=
  dateLt b.date a.date = true ∨ (b.date = a.date ∧ b.id ≤ a.id)

instance : DecidableRel txLe := fun a b =>
  inferInstanceAs (Decidable
    (dateLt b.date a.date = true ∨ (b.date = a.date ∧ b.id ≤ a.id)))

/-- Strict descending-date order (the pagination invariant when all dates
are distinct). -/
def txBefore (a b : Txn) : Prop :=
  dateLt b.date a.date = true

instance : DecidableRel txBefore := fun a b =>
  inferInstanceAs (Decidable (dateLt b.date a.date = true))

/-- `new Date(year, month, 1)` with a human month number: the first day of
the following month (JS rolls month index 12 over to January). -/
def monthEnd (year month : Int) : DateT :=
  if month = 12 then ⟨year + 1, 1, 1⟩ else ⟨year, month + 1, 1⟩

/-- One page returned by `getTxns`. -/
structure TxnPage where
  txns : List Txn
  nextCursor : Option DateT
  hasMore : Bool
deriving DecidableEq, Repr

/-- `getTxns` (txController.ts): chat filter, optional (year, month) window
(whose `$lt` bound is overwritten when a cursor is also present), cursor
constraint `date < cursor`, `(date DESC, _id DESC)` sort, fetch of
`limit + 1` documents, `hasMore` check, pop of the extra document, and
`nextCursor` = date of the last returned document. -/
def getTxns (store : List Txn) (chatId : String)
    (yearMonth : Option (Int × Int)) (cursor : Option DateT) (limit : Nat) :
    TxnPage :=
  let base : List Txn := store.filter (fun t => t.chatId = chatId)
  let filtered : List Txn :=
    match yearMonth, cursor with
    | some (y, m), some c =>
      base.filter (fun t => !(dateLt t.date (DateT.mk y m 1)) &&
        dateLt t.date c)
    | some (y, m), none =>
      base.filter (fun t => !(dateLt t.date (DateT.mk y m 1)) &&
        dateLt t.date (monthEnd y m))
    | none, some c => base.filter (fun t => dateLt t.date c)
    | none, none => base
  let sorted := filtered.insertionSort txLe
  let fetched := sorted.take (limit + 1)
  let page := if limit < fetched.length then fetched.take limit else fetched
  { txns := page
    nextCursor :=
      if limit < fetched.length ∧ page ≠ [] then (page.getLast?).map Txn.date
      else none
    hasMore := limit < fetched.length }

/-- Repeated client fetches: call `getTxns`, and while `hasMore` holds
follow `nextCursor`.  `fuel` bounds the number of requests; the boolean
records whether the run finished (reached a page with `hasMore = false`)
within the allotted requests. -/
def paginateFrom (store : List Txn) (chatId : String) (limit : Nat) :
    Option DateT → Nat → List Txn × Bool
  | _, 0 => ([], false)
  | c, fuel + 1 =>
    let p := getTxns store chatId none c limit
    if p.hasMore then
      let rest := paginateFrom store chatId limit p.nextCursor fuel
      (p.txns ++ rest.1, rest.2)
    else (p.txns, true)

/-- A partial run of exactly `k` fetches (unless the listing finishes
earlier): returns the items seen so far, the cursor a later fetch would
continue from, and whether the listing already finished. -/
def paginateSteps (store : List Txn) (chatId : String) (limit : Nat) :
    Option DateT → Nat → List Txn × Option DateT × Bool
  | c, 0 => ([], c, false)
  | c, k + 1 =>
    let p := getTxns store chatId none c limit
    if p.hasMore then
      let rest := paginateSteps store chatId limit p.nextCursor k
      (p.txns ++ rest.1, rest.2.1, rest.2.2)
    else (p.txns, none, true)

/-- Specification-side view of a paginated listing: the part of the
chat's transactions, in `(date DESC, _id DESC)` order, still ahead of the
cursor. -/
def remainingAfter (store : List Txn) (chatId : String)
    (c : Option DateT) : List Txn :=
  match c with
  | none => (store.filter (fun t => t.chatId = chatId)).insertionSort txLe
  | some cd =>
    ((store.filter (fun t => t.chatId = chatId)).insertionSort txLe).filter
      (fun t => dateLt t.date cd)


theorem wsum_nil (f : Txn → Int) : wsum f [] = 0 := rfl

theorem wsum_cons (f : Txn → Int) (t : Txn) (l : List Txn) :
    wsum f (t :: l) = f t + wsum f l := by
  simp [wsum]

theorem notId_true {i : Nat} {t : Txn} (h : t.id ≠ i) : notId i t = true := by
  simp [notId, h]

theorem notId_false {i : Nat} {t : Txn} (h : t.id = i) : notId i t = false := by
  simp [notId, h]

theorem setTx_self {i : Nat} {t1 x : Txn} (h : x.id = i) : setTx i t1 x = t1 := by
  simp [setTx, h]

theorem setTx_other {i : Nat} {t1 x : Txn} (h : x.id ≠ i) : setTx i t1 x = x := by
  simp [setTx, h]

theorem filter_notId_of_not_mem (l : List Txn) (i : Nat)
    (h : ∀ t ∈ l, t.id ≠ i) : l.filter (notId i) = l := by
  induction l with
  | nil => rfl
  | cons a l ih =>
    have ha : a.id ≠ i := h a (List.mem_cons_self a l)
    have ih2 := ih (fun t ht => h t (List.mem_cons_of_mem a ht))
    rw [List.filter_cons, if_pos (notId_true ha), ih2]

theorem map_setTx_of_not_mem (l : List Txn) (i : Nat) (t1 : Txn)
    (h : ∀ t ∈ l, t.id ≠ i) : l.map (setTx i t1) = l := by
  induction l with
  | nil => rfl
  | cons a l ih =>
    have ha : a.id ≠ i := h a (List.mem_cons_self a l)
    have ih2 := ih (fun t ht => h t (List.mem_cons_of_mem a ht))
    rw [List.map_cons, setTx_other ha, ih2]

theorem not_mem_of_nodup_cons (a : Txn) (l : List Txn)
    (hnd : ((a :: l).map Txn.id).Nodup) : ∀ t ∈ l, t.id ≠ a.id := by
  intro t ht
  simp only [List.map_cons, List.nodup_cons] at hnd
  intro he
  exact hnd.1 (he ▸ List.mem_map_of_mem Txn.id ht)

theorem wsum_remove (f : Txn → Int) (l : List Txn) (i : Nat) (t0 : Txn)
    (hfind : l.find? (hasId i) = some t0)
    (hnd : (l.map Txn.id).Nodup) :
    wsum f (l.filter (notId i)) = wsum f l - f t0 := by
  induction l with
  | nil => simp [List.find?] at hfind
  | cons a l ih =>
    by_cases ha : a.id = i
    · have heq : a = t0 := by
        rw [List.find?_cons_of_pos _ (by simp [hasId, ha])] at hfind
        exact Option.some.inj hfind
      have hrest : ∀ t ∈ l, t.id ≠ i := by
        intro t ht
        have := not_mem_of_nodup_cons a l hnd t ht
        omega
      subst heq
      rw [List.filter_cons, if_neg (by simp [notId, ha]),
        filter_notId_of_not_mem l i hrest, wsum_cons]
      ring
    · have hfind2 : l.find? (hasId i) = some t0 := by
        rwa [List.find?_cons_of_neg _ (by simp [hasId, ha])] at hfind
      have hnd2 : (l.map Txn.id).Nodup := by
        simp only [List.map_cons, List.nodup_cons] at hnd
        exact hnd.2
      rw [List.filter_cons, if_pos (notId_true ha), wsum_cons, wsum_cons,
        ih hfind2 hnd2]
      ring

theorem wsum_update (f : Txn → Int) (l : List Txn) (i : Nat) (t0 t1 : Txn)
    (hfind : l.find? (hasId i) = some t0)
    (hnd : (l.map Txn.id).Nodup) :
    wsum f (l.map (setTx i t1)) = wsum f l - f t0 + f t1 := by
  induction l with
  | nil => simp [List.find?] at hfind
  | cons a l ih =>
    by_cases ha : a.id = i
    · have heq : a = t0 := by
        rw [List.find?_cons_of_pos _ (by simp [hasId, ha])] at hfind
        exact Option.some.inj hfind
      have hrest : ∀ t ∈ l, t.id ≠ i := by
        intro t ht
        have := not_mem_of_nodup_cons a l hnd t ht
        omega
      subst heq
      rw [List.map_cons, setTx_self ha, map_setTx_of_not_mem l i t1 hrest,
        wsum_cons, wsum_cons]
      ring
    · have hfind2 : l.find? (hasId i) = some t0 := by
        rwa [List.find?_cons_of_neg _ (by simp [hasId, ha])] at hfind
      have hnd2 : (l.map Txn.id).Nodup := by
        simp only [List.map_cons, List.nodup_cons] at hnd
        exact hnd.2
      rw [List.map_cons, setTx_other ha, wsum_cons, wsum_cons, ih hfind2 hnd2]
      ring

theorem ids_map_setTx (l : List Txn) (i : Nat) (t1 : Txn) (hid : t1.id = i) :
    (l.map (setTx i t1)).map Txn.id = l.map Txn.id := by
  induction l with
  | nil => rfl
  | cons a l ih =>
    by_cases ha : a.id = i
    · rw [List.map_cons, setTx_self ha]
      simp [ih, hid, ha]
    · rw [List.map_cons, setTx_other ha]
      simp [ih]

theorem findTx_id_eq (l : List Txn) (i : Nat) (t0 : Txn)
    (hfind : l.find? (hasId i) = some t0) : t0.id = i := by
  have := List.find?_some hfind
  simpa [hasId] using this

theorem findTx_mem (l : List Txn) (i : Nat) (t0 : Txn)
    (hfind : l.find? (hasId i) = some t0) : t0 ∈ l :=
  List.mem_of_find?_eq_some hfind

/-! ## Pointwise behaviour of the three summary-service writers -/

/-- Read a document from a raw summary map, absent = all-zero. -/
def mdoc (m : SummaryMap) (k : SKey) : SummaryDoc :=
  (m k).getD zeroDoc

theorem statsAt_eq (s : ServerState) (k : SKey) :
    statsAt s k = mdoc s.summaries k := rfl

theorem onAdd_sent (m : SummaryMap) (c : String) (d : DateT) (f t : String)
    (a : Int) (k : SKey) (u : String) :
    ((mdoc (updateSummaryOnAdd m c d f t a) k).members u).totalSent =
      ((mdoc m k).members u).totalSent +
        (if k = (c, d.year, d.month) ∧ u = f then a else 0) := by
  by_cases hk : k = (c, d.year, d.month)
  · by_cases hu : u = f <;>
      simp [updateSummaryOnAdd, mdoc, getYearMonth, incDoc, hk, hu]
  · simp [updateSummaryOnAdd, mdoc, getYearMonth, hk]

theorem onAdd_recv (m : SummaryMap) (c : String) (d : DateT) (f t : String)
    (a : Int) (k : SKey) (u : String) :
    ((mdoc (updateSummaryOnAdd m c d f t a) k).members u).totalReceived =
      ((mdoc m k).members u).totalReceived +
        (if k = (c, d.year, d.month) ∧ u = t then a else 0) := by
  by_cases hk : k = (c, d.year, d.month)
  · by_cases hu : u = t <;>
      simp [updateSummaryOnAdd, mdoc, getYearMonth, incDoc, hk, hu]
  · simp [updateSummaryOnAdd, mdoc, getYearMonth, hk]

theorem onAdd_cnt (m : SummaryMap) (c : String) (d : DateT) (f t : String)
    (a : Int) (k : SKey) :
    (mdoc (updateSummaryOnAdd m c d f t a) k).txCount =
      (mdoc m k).txCount + (if k = (c, d.year, d.month) then 1 else 0) := by
  by_cases hk : k = (c, d.year, d.month) <;>
    simp [updateSummaryOnAdd, mdoc, getYearMonth, incDoc, hk]

theorem onAdd_isSome (m : SummaryMap) (c : String) (d : DateT) (f t : String)
    (a : Int) (k : SKey) :
    ((updateSummaryOnAdd m c d f t a) k).isSome =
      (if k = (c, d.year, d.month) then true else (m k).isSome) := by
  by_cases hk : k = (c, d.year, d.month) <;>
    simp [updateSummaryOnAdd, getYearMonth, hk]

theorem onDel_sent (m : SummaryMap) (c : String) (d : DateT) (f t : String)
    (a : Int) (k : SKey) (u : String)
    (hm : (m (c, d.year, d.month)).isSome = true) :
    ((mdoc (updateSummaryOnDelete m c d f t a) k).members u).totalSent =
      ((mdoc m k).members u).totalSent -
        (if k = (c, d.year, d.month) ∧ u = f then a else 0) := by
  obtain ⟨doc, hdoc⟩ := Option.isSome_iff_exists.mp hm
  by_cases hk : k = (c, d.year, d.month)
  · by_cases hu : u = f <;>
      simp [updateSummaryOnDelete, mdoc, getYearMonth, incDoc, hk, hu, hdoc] <;>
      ring
  · simp [updateSummaryOnDelete, mdoc, getYearMonth, hk]

theorem onDel_recv (m : SummaryMap) (c : String) (d : DateT) (f t : String)
    (a : Int) (k : SKey) (u : String)
    (hm : (m (c, d.year, d.month)).isSome = true) :
    ((mdoc (updateSummaryOnDelete m c d f t a) k).members u).totalReceived =
      ((mdoc m k).members u).totalReceived -
        (if k = (c, d.year, d.month) ∧ u = t then a else 0) := by
  obtain ⟨doc, hdoc⟩ := Option.isSome_iff_exists.mp hm
  by_cases hk : k = (c, d.year, d.month)
  · by_cases hu : u = t <;>
      simp [updateSummaryOnDelete, mdoc, getYearMonth, incDoc, hk, hu, hdoc] <;>
      ring
  · simp [updateSummaryOnDelete, mdoc, getYearMonth, hk]

theorem onDel_cnt (m : SummaryMap) (c : String) (d : DateT) (f t : String)
    (a : Int) (k : SKey)
    (hm : (m (c, d.year, d.month)).isSome = true) :
    (mdoc (updateSummaryOnDelete m c d f t a) k).txCount =
      (mdoc m k).txCount - (if k = (c, d.year, d.month) then 1 else 0) := by
  obtain ⟨doc, hdoc⟩ := Option.isSome_iff_exists.mp hm
  by_cases hk : k = (c, d.year, d.month) <;>
    simp [updateSummaryOnDelete, mdoc, getYearMonth, incDoc, hk, hdoc] <;>
    ring

theorem onDel_isSome (m : SummaryMap) (c : String) (d : DateT) (f t : String)
    (a : Int) (k : SKey) :
    ((updateSummaryOnDelete m c d f t a) k).isSome = (m k).isSome := by
  by_cases hk : k = (c, d.year, d.month) <;>
    simp [updateSummaryOnDelete, getYearMonth, hk]

theorem onEdit_sent (m : SummaryMap) (c : String) (oldTx newTx : TxFields)
    (k : SKey) (u : String)
    (hm : (m (c, oldTx.date.year, oldTx.date.month)).isSome = true) :
    ((mdoc (updateSummaryOnEdit m c oldTx newTx) k).members u).totalSent =
      ((mdoc m k).members u).totalSent -
        (if k = (c, oldTx.date.year, oldTx.date.month) ∧ u = oldTx.fromU
         then oldTx.amount else 0) +
        (if k = (c, newTx.date.year, newTx.date.month) ∧ u = newTx.fromU
         then newTx.amount else 0) := by
  unfold updateSummaryOnEdit
  by_cases hpath :
      (((getYearMonth oldTx.date).1 = (getYearMonth newTx.date).1 ∧
        (getYearMonth oldTx.date).2 = (getYearMonth newTx.date).2) ∧
       oldTx.fromU = newTx.fromU ∧ oldTx.toU = newTx.toU)
  · obtain ⟨⟨hy, hmn⟩, hf, ht⟩ := hpath
    simp only [getYearMonth] at hy hmn
    rw [if_pos ⟨⟨by simpa [getYearMonth] using hy,
        by simpa [getYearMonth] using hmn⟩, hf, ht⟩]
    by_cases hdiff : newTx.amount - oldTx.amount = 0
    · rw [if_pos hdiff]
      by_cases hk : k = (c, oldTx.date.year, oldTx.date.month)
      · by_cases hu : u = oldTx.fromU <;>
          simp [getYearMonth, hk, hu, ← hy, ← hmn, ← hf] <;> omega
      · have hk2 : ¬ k = (c, newTx.date.year, newTx.date.month) := by
          rw [← hy, ← hmn]; exact hk
        simp [hk, hk2]
    · rw [if_neg hdiff]
      obtain ⟨doc, hdoc⟩ := Option.isSome_iff_exists.mp hm
      by_cases hk : k = (c, oldTx.date.year, oldTx.date.month)
      · by_cases hu : u = oldTx.fromU <;>
          simp [mdoc, getYearMonth, incDoc, hk, hu, ← hy, ← hmn, ← hf, hdoc] <;>
          omega
      · have hk2 : ¬ k = (c, newTx.date.year, newTx.date.month) := by
          rw [← hy, ← hmn]; exact hk
        simp [mdoc, getYearMonth, hk, hk2]
  · rw [if_neg hpath, onAdd_sent, onDel_sent _ _ _ _ _ _ _ _ hm]

theorem onEdit_recv (m : SummaryMap) (c : String) (oldTx newTx : TxFields)
    (k : SKey) (u : String)
    (hm : (m (c, oldTx.date.year, oldTx.date.month)).isSome = true) :
    ((mdoc (updateSummaryOnEdit m c oldTx newTx) k).members u).totalReceived =
      ((mdoc m k).members u).totalReceived -
        (if k = (c, oldTx.date.year, oldTx.date.month) ∧ u = oldTx.toU
         then oldTx.amount else 0) +
        (if k = (c, newTx.date.year, newTx.date.month) ∧ u = newTx.toU
         then newTx.amount else 0) := by
  unfold updateSummaryOnEdit
  by_cases hpath :
      (((getYearMonth oldTx.date).1 = (getYearMonth newTx.date).1 ∧
        (getYearMonth oldTx.date).2 = (getYearMonth newTx.date).2) ∧
       oldTx.fromU = newTx.fromU ∧ oldTx.toU = newTx.toU)
  · obtain ⟨⟨hy, hmn⟩, hf, ht⟩ := hpath
    simp only [getYearMonth] at hy hmn
    rw [if_pos ⟨⟨by simpa [getYearMonth] using hy,
        by simpa [getYearMonth] using hmn⟩, hf, ht⟩]
    by_cases hdiff : newTx.amount - oldTx.amount = 0
    · rw [if_pos hdiff]
      by_cases hk : k = (c, oldTx.date.year, oldTx.date.month)
      · by_cases hu : u = oldTx.toU <;>
          simp [getYearMonth, hk, hu, ← hy, ← hmn, ← ht] <;> omega
      · have hk2 : ¬ k = (c, newTx.date.year, newTx.date.month) := by
          rw [← hy, ← hmn]; exact hk
        simp [hk, hk2]
    · rw [if_neg hdiff]
      obtain ⟨doc, hdoc⟩ := Option.isSome_iff_exists.mp hm
      by_cases hk : k = (c, oldTx.date.year, oldTx.date.month)
      · by_cases hu : u = oldTx.toU <;>
          simp [mdoc, getYearMonth, incDoc, hk, hu, ← hy, ← hmn, ← ht, hdoc] <;>
          omega
      · have hk2 : ¬ k = (c, newTx.date.year, newTx.date.month) := by
          rw [← hy, ← hmn]; exact hk
        simp [mdoc, getYearMonth, hk, hk2]
  · rw [if_neg hpath, onAdd_recv, onDel_recv _ _ _ _ _ _ _ _ hm]

theorem onEdit_cnt (m : SummaryMap) (c : String) (oldTx newTx : TxFields)
    (k : SKey)
    (hm : (m (c, oldTx.date.year, oldTx.date.month)).isSome = true) :
    (mdoc (updateSummaryOnEdit m c oldTx newTx) k).txCount =
      (mdoc m k).txCount -
        (if k = (c, oldTx.date.year, oldTx.date.month) then 1 else 0) +
        (if k = (c, newTx.date.year, newTx.date.month) then 1 else 0) := by
  unfold updateSummaryOnEdit
  by_cases hpath :
      (((getYearMonth oldTx.date).1 = (getYearMonth newTx.date).1 ∧
        (getYearMonth oldTx.date).2 = (getYearMonth newTx.date).2) ∧
       oldTx.fromU = newTx.fromU ∧ oldTx.toU = newTx.toU)
  · obtain ⟨⟨hy, hmn⟩, hf, ht⟩ := hpath
    simp only [getYearMonth] at hy hmn
    rw [if_pos ⟨⟨by simpa [getYearMonth] using hy,
        by simpa [getYearMonth] using hmn⟩, hf, ht⟩]
    by_cases hdiff : newTx.amount - oldTx.amount = 0
    · rw [if_pos hdiff]
      by_cases hk : k = (c, oldTx.date.year, oldTx.date.month)
      · simp [getYearMonth, hk, ← hy, ← hmn]
      · have hk2 : ¬ k = (c, newTx.date.year, newTx.date.month) := by
          rw [← hy, ← hmn]; exact hk
        simp [hk, hk2]
    · rw [if_neg hdiff]
      obtain ⟨doc, hdoc⟩ := Option.isSome_iff_exists.mp hm
      by_cases hk : k = (c, oldTx.date.year, oldTx.date.month)
      · simp [mdoc, getYearMonth, incDoc, hk, ← hy, ← hmn, hdoc]
      · have hk2 : ¬ k = (c, newTx.date.year, newTx.date.month) := by
          rw [← hy, ← hmn]; exact hk
        simp [mdoc, getYearMonth, hk, hk2]
  · rw [if_neg hpath, onAdd_cnt, onDel_cnt _ _ _ _ _ _ _ hm]

theorem onEdit_isSome (m : SummaryMap) (c : String) (oldTx newTx : TxFields)
    (k : SKey)
    (hm : (m (c, oldTx.date.year, oldTx.date.month)).isSome = true) :
    ((updateSummaryOnEdit m c oldTx newTx) k).isSome =
      (if k = (c, newTx.date.year, newTx.date.month) then true
       else (m k).isSome) := by
  unfold updateSummaryOnEdit
  by_cases hpath :
      (((getYearMonth oldTx.date).1 = (getYearMonth newTx.date).1 ∧
        (getYearMonth oldTx.date).2 = (getYearMonth newTx.date).2) ∧
       oldTx.fromU = newTx.fromU ∧ oldTx.toU = newTx.toU)
  · obtain ⟨⟨hy, hmn⟩, hf, ht⟩ := hpath
    simp only [getYearMonth] at hy hmn
    rw [if_pos ⟨⟨by simpa [getYearMonth] using hy,
        by simpa [getYearMonth] using hmn⟩, hf, ht⟩]
    by_cases hdiff : newTx.amount - oldTx.amount = 0
    · rw [if_pos hdiff]
      by_cases hk : k = (c, newTx.date.year, newTx.date.month)
      · rw [if_pos hk, hk, ← hy, ← hmn]
        exact hm
      · rw [if_neg hk]
    · rw [if_neg hdiff]
      by_cases hk : k = (c, newTx.date.year, newTx.date.month)
      · have hk2 : k = (c, oldTx.date.year, oldTx.date.month) := by
          rw [hy, hmn]; exact hk
        rw [if_pos hk]
        simp [getYearMonth, hk2, hm]
      · have hk2 : ¬ k = (c, oldTx.date.year, oldTx.date.month) := by
          rw [hy, hmn]; exact hk
        simp [getYearMonth, hk, hk2]
  · rw [if_neg hpath, onAdd_isSome]
    by_cases hk : k = (c, newTx.date.year, newTx.date.month)
    · rw [if_pos hk, if_pos hk]
    · rw [if_neg hk, if_neg hk]
      exact onDel_isSome _ _ _ _ _ _ _

/-! ## Preservation of the ledger invariant by every lifecycle request -/

theorem sentW_eval (t : Txn) (k : SKey) (u : String) :
    sentW k u t = if k = keyOf t ∧ u = t.fromU then t.amount else 0 := by
  unfold sentW
  exact if_congr ⟨fun h => ⟨h.1.symm, h.2.symm⟩, fun h => ⟨h.1.symm, h.2.symm⟩⟩
    rfl rfl

theorem recvW_eval (t : Txn) (k : SKey) (u : String) :
    recvW k u t = if k = keyOf t ∧ u = t.toU then t.amount else 0 := by
  unfold recvW
  exact if_congr ⟨fun h => ⟨h.1.symm, h.2.symm⟩, fun h => ⟨h.1.symm, h.2.symm⟩⟩
    rfl rfl

theorem cntW_eval (t : Txn) (k : SKey) :
    cntW k t = if k = keyOf t then 1 else 0 := by
  unfold cntW
  exact if_congr ⟨fun h => h.symm, fun h => h.symm⟩ rfl rfl

theorem inv_add (now : DateT) (u0 : String) (b : AddBody) (s s1 : ServerState)
    (h : addtxns now u0 b s = .ok s1) (hInv : LedgerInv s) : LedgerInv s1 := by
  unfold addtxns at h
  split at h
  · simp at h
  · split at h
    · simp at h
    · split at h
      · injection h with h1
        subst h1
        have hS := hInv.1
        have hP := hInv.2.1
        have hIds := hInv.2.2.1
        have hNd := hInv.2.2.2
        refine ⟨fun k u => ?_, fun t ht => ?_, fun t ht => ?_, ?_⟩
        · have hkey : keyOf
              { id := s.nextId, chatId := b.chatId, amount := b.amount
                date := b.date, remarks := b.remarks, toU := b.toU
                fromU := b.fromU, addedBy := u0, verified := false
                verifiedBy := none, verifiedAt := none } =
              (b.chatId, b.date.year, b.date.month) := rfl
        -- the new state reads through updateSummaryOnAdd and conses the txn
          refine ⟨?_, ?_, ?_⟩
          · rw [statsAt_eq]
            show ((mdoc (updateSummaryOnAdd s.summaries b.chatId b.date
                b.fromU b.toU b.amount) k).members u).totalSent = _
            rw [onAdd_sent, wsum_cons, sentW_eval, hkey,
              ← (hS k u).1, statsAt_eq]
            ring
          · rw [statsAt_eq]
            show ((mdoc (updateSummaryOnAdd s.summaries b.chatId b.date
                b.fromU b.toU b.amount) k).members u).totalReceived = _
            rw [onAdd_recv, wsum_cons, recvW_eval, hkey,
              ← (hS k u).2.1, statsAt_eq]
            ring
          · rw [statsAt_eq]
            show (mdoc (updateSummaryOnAdd s.summaries b.chatId b.date
                b.fromU b.toU b.amount) k).txCount = _
            rw [onAdd_cnt, wsum_cons, cntW_eval, hkey,
              ← (hS k u).2.2, statsAt_eq]
            ring
        · show ((updateSummaryOnAdd s.summaries b.chatId b.date b.fromU b.toU
              b.amount) (keyOf t)).isSome = true
          rw [onAdd_isSome]
          rcases List.mem_cons.mp ht with h1 | h1
          · subst h1
            simp
            exact Or.inl rfl
          · by_cases hk : keyOf t = (b.chatId, b.date.year, b.date.month)
            · simp [hk]
            · simp only [hk, if_neg hk]
              exact hP t h1
        · rcases List.mem_cons.mp ht with h1 | h1
          · subst h1
            show s.nextId < s.nextId + 1
            omega
          · have := hIds t h1
            show t.id < s.nextId + 1
            omega
        · show (s.nextId :: s.txs.map Txn.id).Nodup
          refine List.nodup_cons.mpr ⟨?_, hNd⟩
          intro hmem
          obtain ⟨t, ht, hid⟩ := List.mem_map.mp hmem
          have := hIds t ht
          omega
      · simp at h

theorem keyOf_eval (t : Txn) : keyOf t = (t.chatId, t.date.year, t.date.month) :=
  rfl

theorem inv_delete (now : DateT) (u0 : String) (i : Nat) (s s1 : ServerState)
    (h : deleteTxn now u0 i s = .ok s1) (hInv : LedgerInv s) : LedgerInv s1 := by
  unfold deleteTxn at h
  cases hf : findTx s i with
  | none => rw [hf] at h; simp at h
  | some t =>
    rw [hf] at h
    dsimp only at h
    by_cases ho : t.addedBy = u0
    case neg => rw [if_pos ho] at h; simp at h
    case pos =>
      rw [if_neg (not_not_intro ho)] at h
      by_cases hv : t.verified = true
      · rw [if_pos hv] at h; simp at h
      · rw [if_neg hv] at h
        injection h with h1
        subst h1
        have hS := hInv.1
        have hP := hInv.2.1
        have hIds := hInv.2.2.1
        have hNd := hInv.2.2.2
        have htmem : t ∈ s.txs := findTx_mem s.txs i t hf
        have hpres : (s.summaries (t.chatId, t.date.year, t.date.month)).isSome
            = true := hP t htmem
        refine ⟨fun k u => ⟨?_, ?_, ?_⟩, fun x hx => ?_, fun x hx => ?_, ?_⟩
        · rw [statsAt_eq]
          show ((mdoc (updateSummaryOnDelete s.summaries t.chatId t.date
              t.fromU t.toU t.amount) k).members u).totalSent = _
          rw [onDel_sent _ _ _ _ _ _ _ _ hpres,
            wsum_remove _ _ _ _ hf hNd, sentW_eval, keyOf_eval,
            ← (hS k u).1, statsAt_eq]
        · rw [statsAt_eq]
          show ((mdoc (updateSummaryOnDelete s.summaries t.chatId t.date
              t.fromU t.toU t.amount) k).members u).totalReceived = _
          rw [onDel_recv _ _ _ _ _ _ _ _ hpres,
            wsum_remove _ _ _ _ hf hNd, recvW_eval, keyOf_eval,
            ← (hS k u).2.1, statsAt_eq]
        · rw [statsAt_eq]
          show (mdoc (updateSummaryOnDelete s.summaries t.chatId t.date
              t.fromU t.toU t.amount) k).txCount = _
          rw [onDel_cnt _ _ _ _ _ _ _ hpres,
            wsum_remove _ _ _ _ hf hNd, cntW_eval, keyOf_eval,
            ← (hS k u).2.2, statsAt_eq]
        · show ((updateSummaryOnDelete s.summaries t.chatId t.date t.fromU
              t.toU t.amount) (keyOf x)).isSome = true
          rw [onDel_isSome]
          exact hP x (List.mem_of_mem_filter hx)
        · exact hIds x (List.mem_of_mem_filter hx)
        · exact List.Nodup.sublist ((List.filter_sublist s.txs).map Txn.id) hNd

theorem wsum_set_verified (f : Txn → Int) (l : List Txn) (i : Nat)
    (t0 : Txn) (u0 : String) (now : DateT)
    (hfind : l.find? (hasId i) = some t0) (hnd : (l.map Txn.id).Nodup)
    (hft : f { t0 with verified := true, verifiedBy := some u0
                       verifiedAt := some now } = f t0) :
    wsum f (l.map (setTx i
      { t0 with verified := true, verifiedBy := some u0
                verifiedAt := some now })) = wsum f l := by
  rw [wsum_update f l i t0 _ hfind hnd, hft]
  ring

theorem inv_verify (now : DateT) (u0 : String) (i : Nat) (s s1 : ServerState)
    (h : verifyTxn now u0 i s = .ok s1) (hInv : LedgerInv s) : LedgerInv s1 := by
  unfold verifyTxn at h
  cases hf : findTx s i with
  | none => rw [hf] at h; simp at h
  | some t =>
    rw [hf] at h
    dsimp only at h
    by_cases ho : t.addedBy = u0
    case pos => rw [if_pos ho] at h; simp at h
    case neg =>
      rw [if_neg ho] at h
      by_cases hv : t.verified = true
      · rw [if_pos hv] at h; simp at h
      · rw [if_neg hv] at h
        injection h with h1
        subst h1
        have hS := hInv.1
        have hP := hInv.2.1
        have hIds := hInv.2.2.1
        have hNd := hInv.2.2.2
        have htmem : t ∈ s.txs := findTx_mem s.txs i t hf
        have hid : t.id = i := findTx_id_eq s.txs i t hf
        have hkeep :
            (s.txs.map (setTx i
              { t with verified := true, verifiedBy := some u0
                       verifiedAt := some now })).map Txn.id =
            s.txs.map Txn.id :=
          ids_map_setTx s.txs i _ hid
        refine ⟨fun k u => ⟨?_, ?_, ?_⟩, fun x hx => ?_, fun x hx => ?_, ?_⟩
        · show ((statsAt s k).members u).totalSent =
            wsum (sentW k u) (s.txs.map (setTx i
              { t with verified := true, verifiedBy := some u0
                       verifiedAt := some now }))
          rw [wsum_set_verified (sentW k u) s.txs i t u0 now hf hNd rfl]
          exact (hS k u).1
        · show ((statsAt s k).members u).totalReceived =
            wsum (recvW k u) (s.txs.map (setTx i
              { t with verified := true, verifiedBy := some u0
                       verifiedAt := some now }))
          rw [wsum_set_verified (recvW k u) s.txs i t u0 now hf hNd rfl]
          exact (hS k u).2.1
        · show (statsAt s k).txCount =
            wsum (cntW k) (s.txs.map (setTx i
              { t with verified := true, verifiedBy := some u0
                       verifiedAt := some now }))
          rw [wsum_set_verified (cntW k) s.txs i t u0 now hf hNd rfl]
          exact (hS k u).2.2
        · obtain ⟨y, hy, hxy⟩ := List.mem_map.mp hx
          by_cases hyid : y.id = i
          · rw [← hxy, setTx_self hyid]
            exact hP t htmem
          · rw [← hxy, setTx_other hyid]
            exact hP y hy
        · obtain ⟨y, hy, hxy⟩ := List.mem_map.mp hx
          by_cases hyid : y.id = i
          · rw [← hxy, setTx_self hyid]
            show t.id < s.nextId
            exact hIds t htmem
          · rw [← hxy, setTx_other hyid]
            exact hIds y hy
        · show ((s.txs.map (setTx i _)).map Txn.id).Nodup
          rw [hkeep]
          exact hNd

theorem applyEdit_chatId (t : Txn) (b : EditBody) :
    (applyEdit t b).chatId = t.chatId := rfl

theorem inv_edit (now : DateT) (u0 : String) (i : Nat) (b : EditBody)
    (s s1 : ServerState) (h : editTxn now u0 i b s = .ok s1)
    (hInv : LedgerInv s) : LedgerInv s1 := by
  unfold editTxn at h
  cases hf : findTx s i with
  | none => rw [hf] at h; simp at h
  | some t =>
    rw [hf] at h
    dsimp only at h
    by_cases ho : t.addedBy = u0
    case neg => rw [if_pos ho] at h; simp at h
    case pos =>
      rw [if_neg (not_not_intro ho)] at h
      by_cases hv : t.verified = true
      · rw [if_pos hv] at h; simp at h
      · rw [if_neg hv] at h
        by_cases hnd2 : (match b.date with
                         | some nd => dateLt nd (monthStart now)
                         | none => false) = true
        · rw [if_pos hnd2] at h; simp at h
        · rw [if_neg hnd2] at h
          by_cases hod : dateLt t.date (monthStart now) = true
          · rw [if_pos hod] at h; simp at h
          · rw [if_neg hod] at h
            by_cases hsv : (applyEdit t b).amount < 0
            · rw [if_pos hsv] at h; simp at h
            · rw [if_neg hsv] at h
              injection h with h1
              subst h1
              have hS := hInv.1
              have hP := hInv.2.1
              have hIds := hInv.2.2.1
              have hNd := hInv.2.2.2
              have htmem : t ∈ s.txs := findTx_mem s.txs i t hf
              have hid : t.id = i := findTx_id_eq s.txs i t hf
              have hpres :
                  (s.summaries (t.chatId, t.date.year, t.date.month)).isSome
                    = true := hP t htmem
              refine ⟨fun k u => ⟨?_, ?_, ?_⟩, fun x hx => ?_,
                fun x hx => ?_, ?_⟩
              · show ((mdoc (updateSummaryOnEdit s.summaries t.chatId
                    ⟨t.date, t.fromU, t.toU, t.amount⟩
                    ⟨(applyEdit t b).date, (applyEdit t b).fromU,
                     (applyEdit t b).toU, (applyEdit t b).amount⟩)
                    k).members u).totalSent =
                  wsum (sentW k u) (s.txs.map (setTx i (applyEdit t b)))
                rw [onEdit_sent _ _ _ _ _ _ hpres,
                  wsum_update _ _ _ _ _ hf hNd, sentW_eval, sentW_eval,
                  keyOf_eval, keyOf_eval, applyEdit_chatId,
                  ← (hS k u).1, statsAt_eq]
              · show ((mdoc (updateSummaryOnEdit s.summaries t.chatId
                    ⟨t.date, t.fromU, t.toU, t.amount⟩
                    ⟨(applyEdit t b).date, (applyEdit t b).fromU,
                     (applyEdit t b).toU, (applyEdit t b).amount⟩)
                    k).members u).totalReceived =
                  wsum (recvW k u) (s.txs.map (setTx i (applyEdit t b)))
                rw [onEdit_recv _ _ _ _ _ _ hpres,
                  wsum_update _ _ _ _ _ hf hNd, recvW_eval, recvW_eval,
                  keyOf_eval, keyOf_eval, applyEdit_chatId,
                  ← (hS k u).2.1, statsAt_eq]
              · show (mdoc (updateSummaryOnEdit s.summaries t.chatId
                    ⟨t.date, t.fromU, t.toU, t.amount⟩
                    ⟨(applyEdit t b).date, (applyEdit t b).fromU,
                     (applyEdit t b).toU, (applyEdit t b).amount⟩)
                    k).txCount =
                  wsum (cntW k) (s.txs.map (setTx i (applyEdit t b)))
                rw [onEdit_cnt _ _ _ _ _ hpres,
                  wsum_update _ _ _ _ _ hf hNd, cntW_eval, cntW_eval,
                  keyOf_eval, keyOf_eval, applyEdit_chatId,
                  ← (hS k u).2.2, statsAt_eq]
              · obtain ⟨y, hy, hxy⟩ := List.mem_map.mp hx
                by_cases hyid : y.id = i
                · rw [← hxy, setTx_self hyid]
                  show ((updateSummaryOnEdit s.summaries t.chatId
                      ⟨t.date, t.fromU, t.toU, t.amount⟩
                      ⟨(applyEdit t b).date, (applyEdit t b).fromU,
                       (applyEdit t b).toU, (applyEdit t b).amount⟩)
                      (keyOf (applyEdit t b))).isSome = true
                  rw [onEdit_isSome _ _ _ _ _ hpres, keyOf_eval,
                    applyEdit_chatId]
                  dsimp only
                  rw [if_pos rfl]
                · rw [← hxy, setTx_other hyid]
                  show ((updateSummaryOnEdit s.summaries t.chatId
                      ⟨t.date, t.fromU, t.toU, t.amount⟩
                      ⟨(applyEdit t b).date, (applyEdit t b).fromU,
                       (applyEdit t b).toU, (applyEdit t b).amount⟩)
                      (keyOf y)).isSome = true
                  rw [onEdit_isSome _ _ _ _ _ hpres]
                  dsimp only
                  by_cases hk : keyOf y =
                      (t.chatId, (applyEdit t b).date.year,
                       (applyEdit t b).date.month)
                  · rw [if_pos hk]
                  · rw [if_neg hk]
                    exact hP y hy
              · obtain ⟨y, hy, hxy⟩ := List.mem_map.mp hx
                by_cases hyid : y.id = i
                · rw [← hxy, setTx_self hyid]
                  show (applyEdit t b).id < s.nextId
                  show t.id < s.nextId
                  exact hIds t htmem
                · rw [← hxy, setTx_other hyid]
                  exact hIds y hy
              · show ((s.txs.map (setTx i (applyEdit t b))).map Txn.id).Nodup
                rw [ids_map_setTx s.txs i (applyEdit t b) hid]
                exact hNd

theorem inv_execOp (s : ServerState) (op : Op) (h : LedgerInv s) :
    LedgerInv (execOp s op) := by
  cases op with
  | add now u b =>
    show LedgerInv (match addRoute now u b s with
                    | .ok s1 => s1
                    | .error _ => s)
    cases hr : addRoute now u b s with
    | error e => exact h
    | ok s1 =>
      have hadd : addtxns now u b s = .ok s1 := by
        unfold addRoute at hr
        split at hr
        · exact hr
        · simp at hr
      exact inv_add now u b s s1 hadd h
  | edit now u i b =>
    show LedgerInv (match editTxn now u i b s with
                    | .ok s1 => s1
                    | .error _ => s)
    cases hr : editTxn now u i b s with
    | error e => exact h
    | ok s1 => exact inv_edit now u i b s s1 hr h
  | delete now u i =>
    show LedgerInv (match deleteTxn now u i s with
                    | .ok s1 => s1
                    | .error _ => s)
    cases hr : deleteTxn now u i s with
    | error e => exact h
    | ok s1 => exact inv_delete now u i s s1 hr h
  | verify now u i =>
    show LedgerInv (match verifyTxn now u i s with
                    | .ok s1 => s1
                    | .error _ => s)
    cases hr : verifyTxn now u i s with
    | error e => exact h
    | ok s1 => exact inv_verify now u i s s1 hr h

theorem inv_init (chats : String → Option (List String)) :
    LedgerInv (initState chats) := by
  refine ⟨fun k u => ⟨rfl, rfl, rfl⟩, fun t ht => ?_, fun t ht => ?_, ?_⟩
  · exact absurd ht (List.not_mem_nil t)
  · exact absurd ht (List.not_mem_nil t)
  · exact List.nodup_nil

theorem inv_foldl (ops : List Op) :
    ∀ s : ServerState, LedgerInv s → LedgerInv (ops.foldl execOp s) := by
  induction ops with
  | nil => intro s h; exact h
  | cons op ops ih =>
    intro s h
    exact ih (execOp s op) (inv_execOp s op h)

theorem inv_execOps (chats : String → Option (List String)) (ops : List Op) :
    LedgerInv (execOps chats ops) :=
  inv_foldl ops (initState chats) (inv_init chats)

/-! ## Shape of each successful controller call -/

theorem addtxns_ok_txs (now : DateT) (u0 : String) (b : AddBody)
    (s s1 : ServerState) (h : addtxns now u0 b s = .ok s1) :
    ∃ txn : Txn, s1.txs = txn :: s.txs ∧ txn.amount = b.amount := by
  unfold addtxns at h
  split at h
  · simp at h
  · split at h
    · simp at h
    · split at h
      · injection h with h1
        subst h1
        exact ⟨_, rfl, rfl⟩
      · simp at h

theorem editTxn_ok_shape (now : DateT) (u0 : String) (i : Nat) (b : EditBody)
    (s s1 : ServerState) (h : editTxn now u0 i b s = .ok s1) :
    ∃ t0 : Txn, findTx s i = some t0 ∧ t0.verified = false ∧
      0 ≤ (applyEdit t0 b).amount ∧
      s1.txs = s.txs.map (setTx i (applyEdit t0 b)) := by
  unfold editTxn at h
  cases hf : findTx s i with
  | none => rw [hf] at h; simp at h
  | some t =>
    rw [hf] at h
    dsimp only at h
    by_cases ho : t.addedBy = u0
    case neg => rw [if_pos ho] at h; simp at h
    case pos =>
      rw [if_neg (not_not_intro ho)] at h
      by_cases hv : t.verified = true
      · rw [if_pos hv] at h; simp at h
      · rw [if_neg hv] at h
        by_cases hnd2 : (match b.date with
                         | some nd => dateLt nd (monthStart now)
                         | none => false) = true
        · rw [if_pos hnd2] at h; simp at h
        · rw [if_neg hnd2] at h
          by_cases hod : dateLt t.date (monthStart now) = true
          · rw [if_pos hod] at h; simp at h
          · rw [if_neg hod] at h
            by_cases hsv : (applyEdit t b).amount < 0
            · rw [if_pos hsv] at h; simp at h
            · rw [if_neg hsv] at h
              injection h with h1
              subst h1
              exact ⟨t, rfl, by simp [hv], by omega, rfl⟩

theorem deleteTxn_ok_shape (now : DateT) (u0 : String) (i : Nat)
    (s s1 : ServerState) (h : deleteTxn now u0 i s = .ok s1) :
    ∃ t0 : Txn, findTx s i = some t0 ∧ t0.verified = false ∧
      s1.txs = s.txs.filter (notId i) := by
  unfold deleteTxn at h
  cases hf : findTx s i with
  | none => rw [hf] at h; simp at h
  | some t =>
    rw [hf] at h
    dsimp only at h
    refine ⟨t, rfl, ?_, ?_⟩
    · by_cases hv : t.verified = true
      · exfalso
        by_cases ho : t.addedBy = u0
        · rw [if_neg (not_not_intro ho), if_pos hv] at h
          simp at h
        · rw [if_pos ho] at h
          simp at h
      · simp [hv]
    · by_cases ho : t.addedBy = u0
      case neg => rw [if_pos ho] at h; simp at h
      case pos =>
        rw [if_neg (not_not_intro ho)] at h
        by_cases hv : t.verified = true
        · rw [if_pos hv] at h; simp at h
        · rw [if_neg hv] at h
          injection h with h1
          subst h1
          rfl

theorem verifyTxn_ok_shape (now : DateT) (u0 : String) (i : Nat)
    (s s1 : ServerState) (h : verifyTxn now u0 i s = .ok s1) :
    ∃ t0 : Txn, findTx s i = some t0 ∧ t0.verified = false ∧
      s1.txs = s.txs.map (setTx i
        { t0 with verified := true, verifiedBy := some u0
                  verifiedAt := some now }) := by
  unfold verifyTxn at h
  cases hf : findTx s i with
  | none => rw [hf] at h; simp at h
  | some t =>
    rw [hf] at h
    dsimp only at h
    refine ⟨t, rfl, ?_, ?_⟩
    · by_cases hv : t.verified = true
      · exfalso
        by_cases ho : t.addedBy = u0
        · rw [if_pos ho] at h
          simp at h
        · rw [if_neg ho, if_pos hv] at h
          simp at h
      · simp [hv]
    · by_cases ho : t.addedBy = u0
      case pos => rw [if_pos ho] at h; simp at h
      case neg =>
        rw [if_neg ho] at h
        by_cases hv : t.verified = true
        · rw [if_pos hv] at h; simp at h
        · rw [if_neg hv] at h
          injection h with h1
          subst h1
          rfl

theorem find?_eq_of_mem_nodup (l : List Txn) (i : Nat) (t : Txn)
    (hnd : (l.map Txn.id).Nodup) (ht : t ∈ l) (hid : t.id = i) :
    l.find? (hasId i) = some t := by
  induction l with
  | nil => exact absurd ht (List.not_mem_nil t)
  | cons a l ih =>
    rcases List.mem_cons.mp ht with h1 | h1
    · subst h1
      exact List.find?_cons_of_pos _ (by simp [hasId, hid])
    · have ha : a.id ≠ i := by
        intro he
        have := not_mem_of_nodup_cons a l hnd t h1
        omega
      rw [List.find?_cons_of_neg _ (by simp [hasId, ha])]
      have hnd2 : (l.map Txn.id).Nodup := by
        simp only [List.map_cons, List.nodup_cons] at hnd
        exact hnd.2
      exact ih hnd2 h1

/-- A verified transaction survives every lifecycle request unchanged:
edits and deletes of it are rejected, and no request rewrites it. -/
theorem verified_stable (s : ServerState) (hInv : LedgerInv s) (t : Txn)
    (ht : t ∈ s.txs) (hv : t.verified = true) :
    ∀ op : Op, t ∈ (execOp s op).txs := by
  intro op
  have hNd := hInv.2.2.2
  cases op with
  | add now u b =>
    show t ∈ (match addRoute now u b s with
              | .ok s1 => s1
              | .error _ => s).txs
    cases hr : addRoute now u b s with
    | error e => exact ht
    | ok s1 =>
      have hadd : addtxns now u b s = .ok s1 := by
        unfold addRoute at hr
        split at hr
        · exact hr
        · simp at hr
      obtain ⟨txn, hshape, hamt⟩ := addtxns_ok_txs now u b s s1 hadd
      rw [hshape]
      exact List.mem_cons_of_mem txn ht
  | edit now u i b =>
    show t ∈ (match editTxn now u i b s with
              | .ok s1 => s1
              | .error _ => s).txs
    cases hr : editTxn now u i b s with
    | error e => exact ht
    | ok s1 =>
      obtain ⟨t0, hf, hv0, hamt, hshape⟩ := editTxn_ok_shape now u i b s s1 hr
      have hne : t.id ≠ i := by
        intro he
        have hft : findTx s i = some t :=
          find?_eq_of_mem_nodup s.txs i t hNd ht he
        rw [hft] at hf
        injection hf with hf1
        rw [← hf1] at hv0
        rw [hv] at hv0
        exact absurd hv0 (by simp)
      rw [hshape]
      have : setTx i (applyEdit t0 b) t = t := setTx_other hne
      exact this ▸ List.mem_map_of_mem (setTx i (applyEdit t0 b)) ht
  | delete now u i =>
    show t ∈ (match deleteTxn now u i s with
              | .ok s1 => s1
              | .error _ => s).txs
    cases hr : deleteTxn now u i s with
    | error e => exact ht
    | ok s1 =>
      obtain ⟨t0, hf, hv0, hshape⟩ := deleteTxn_ok_shape now u i s s1 hr
      have hne : t.id ≠ i := by
        intro he
        have hft : findTx s i = some t :=
          find?_eq_of_mem_nodup s.txs i t hNd ht he
        rw [hft] at hf
        injection hf with hf1
        rw [← hf1] at hv0
        rw [hv] at hv0
        exact absurd hv0 (by simp)
      rw [hshape]
      exact List.mem_filter.mpr ⟨ht, notId_true hne⟩
  | verify now u i =>
    show t ∈ (match verifyTxn now u i s with
              | .ok s1 => s1
              | .error _ => s).txs
    cases hr : verifyTxn now u i s with
    | error e => exact ht
    | ok s1 =>
      obtain ⟨t0, hf, hv0, hshape⟩ := verifyTxn_ok_shape now u i s s1 hr
      have hne : t.id ≠ i := by
        intro he
        have hft : findTx s i = some t :=
          find?_eq_of_mem_nodup s.txs i t hNd ht he
        rw [hft] at hf
        injection hf with hf1
        rw [← hf1] at hv0
        rw [hv] at hv0
        exact absurd hv0 (by simp)
      rw [hshape]
      have : setTx i { t0 with verified := true, verifiedBy := some u
                               verifiedAt := some now } t = t :=
        setTx_other hne
      exact this ▸ List.mem_map_of_mem _ ht

/-! ## Claim theorems -/

/-- C1: after any sequence of lifecycle requests run from a fresh
deployment — in particular any add/edit/delete sequence confined to a
single (chat, year, month) with no boundary crossings — the stored
MonthlySummary of every period (each member's `totalSent` and
`totalReceived`, and `txCount`, an absent document read as all-zero)
equals the aggregate obtained by summing directly over the set of
transactions present at the end of the sequence. -/
theorem c1_summary_equals_direct_sum
    (chats : String → Option (List String)) (ops : List Op) (k : SKey)
    (u : String) :
    ((statsAt (execOps chats ops) k).members u).totalSent =
        wsum (sentW k u) (execOps chats ops).txs ∧
      ((statsAt (execOps chats ops) k).members u).totalReceived =
        wsum (recvW k u) (execOps chats ops).txs ∧
      (statsAt (execOps chats ops) k).txCount =
        wsum (cntW k) (execOps chats ops).txs :=
  (inv_execOps chats ops).1 k u

/-- C2 (amended): for a transaction dated before the start of the current
month, creation is rejected with `ClosedPeriod` (for a schema-valid
payload), and editing with the date unchanged is rejected with
`ClosedPeriod`; but `deleteTxn` performs no closed-month check at all: a
delete of an unverified past-month transaction by its owner succeeds,
removing the document and decrementing the aggregate. -/
theorem c2_closed_month_guards :
    (∀ (now : DateT) (u0 : String) (b : AddBody) (s : ServerState),
      addTxnSchemaOk b = true → dateLt b.date (monthStart now) = true →
        addRoute now u0 b s = .error .closedPeriodAdd ∧
          isClosedPeriod .closedPeriodAdd = true) ∧
    (∀ (now : DateT) (u0 : String) (i : Nat) (b : EditBody)
        (s : ServerState) (t : Txn),
      findTx s i = some t → t.addedBy = u0 → t.verified = false →
        b.date = none → dateLt t.date (monthStart now) = true →
          editTxn now u0 i b s = .error .closedPeriodOrigDate ∧
            isClosedPeriod .closedPeriodOrigDate = true) ∧
    (∀ (now : DateT) (u0 : String) (i : Nat) (s : ServerState) (t : Txn),
      findTx s i = some t → t.addedBy = u0 → t.verified = false →
        deleteTxn now u0 i s = .ok
          { s with
              summaries := updateSummaryOnDelete s.summaries t.chatId t.date
                t.fromU t.toU t.amount
              txs := s.txs.filter (notId i) }) := by
  refine ⟨fun now u0 b s hschema hdate => ⟨?_, rfl⟩,
    fun now u0 i b s t hf ho hv hbd hdate => ⟨?_, rfl⟩,
    fun now u0 i s t hf ho hv => ?_⟩
  · unfold addRoute
    rw [if_pos hschema]
    unfold addtxns
    rw [if_pos hdate]
  · unfold editTxn
    rw [hf]
    dsimp only
    rw [if_neg (not_not_intro ho), if_neg (by simp [hv]), hbd]
    dsimp only
    rw [if_neg (by simp), if_pos hdate]
  · unfold deleteTxn
    rw [hf]
    dsimp only
    rw [if_neg (not_not_intro ho), if_neg (by simp [hv])]

/-- C2 counterexample: a transaction added on 2025-06-15 (while June 2025
was the current month) is deleted on 2025-10-11 — a date firmly in a
closed month — and the delete succeeds and empties the ledger, where the
claim requires a `ClosedPeriod` rejection leaving the ledger unchanged. -/
theorem c2_counterexample :
    (dateLt (DateT.mk 2025 6 15)
        (monthStart (DateT.mk 2025 10 11)) = true) ∧
    (deleteTxn (DateT.mk 2025 10 11) "aaaaaaaaaaaaaaaaaaaaaaaa" 0
        (execOps
          (fun c => if c = "cccccccccccccccccccccccc"
                    then some ["aaaaaaaaaaaaaaaaaaaaaaaa",
                               "bbbbbbbbbbbbbbbbbbbbbbbb"]
                    else none)
          [Op.add (DateT.mk 2025 6 20) "aaaaaaaaaaaaaaaaaaaaaaaa"
            { chatId := "cccccccccccccccccccccccc", amount := 100
              date := DateT.mk 2025 6 15, remarks := none
              toU := "bbbbbbbbbbbbbbbbbbbbbbbb"
              fromU := "aaaaaaaaaaaaaaaaaaaaaaaa" }])).toOption.map
      ServerState.txs = some [] := by
  constructor
  · decide
  · rfl

theorem c2_witness :
    (dateLt (DateT.mk 2025 6 15) (monthStart (DateT.mk 2025 10 11)) = true) ∧
    (addRoute (DateT.mk 2025 10 11) "aaaaaaaaaaaaaaaaaaaaaaaa"
        { chatId := "cccccccccccccccccccccccc", amount := 5
          date := DateT.mk 2025 6 15, remarks := none
          toU := "bbbbbbbbbbbbbbbbbbbbbbbb"
          fromU := "aaaaaaaaaaaaaaaaaaaaaaaa" }
        (initState fun _ => none) = .error .closedPeriodAdd) := by
  refine ⟨by decide, ?_⟩
  exact (c2_closed_month_guards.1 (DateT.mk 2025 10 11)
    "aaaaaaaaaaaaaaaaaaaaaaaa"
    { chatId := "cccccccccccccccccccccccc", amount := 5
      date := DateT.mk 2025 6 15, remarks := none
      toU := "bbbbbbbbbbbbbbbbbbbbbbbb"
      fromU := "aaaaaaaaaaaaaaaaaaaaaaaa" }
    (initState fun _ => none) (by decide) (by decide)).1

theorem addTxnSchemaOk_amount (b : AddBody) (h : addTxnSchemaOk b = true) :
    0 < b.amount := by
  unfold addTxnSchemaOk at h
  simp only [Bool.and_eq_true, decide_eq_true_eq] at h
  exact h.1.1.1.2

theorem amount_nonneg_execOp (s : ServerState) (op : Op)
    (h : ∀ t ∈ s.txs, 0 ≤ t.amount) :
    ∀ t ∈ (execOp s op).txs, 0 ≤ t.amount := by
  cases op with
  | add now u b =>
    show ∀ t ∈ (match addRoute now u b s with
                | .ok s1 => s1
                | .error _ => s).txs, (0 : Int) ≤ t.amount
    cases hr : addRoute now u b s with
    | error e => exact h
    | ok s1 =>
      by_cases hc : addTxnSchemaOk b = true
      · have hadd : addtxns now u b s = .ok s1 := by
          unfold addRoute at hr
          rw [if_pos hc] at hr
          exact hr
        obtain ⟨txn, hshape, hamt⟩ := addtxns_ok_txs now u b s s1 hadd
        intro t ht
        rw [hshape] at ht
        rcases List.mem_cons.mp ht with h1 | h1
        · subst h1
          rw [hamt]
          have := addTxnSchemaOk_amount b hc
          omega
        · exact h t h1
      · unfold addRoute at hr
        rw [if_neg hc] at hr
        simp at hr
  | edit now u i b =>
    show ∀ t ∈ (match editTxn now u i b s with
                | .ok s1 => s1
                | .error _ => s).txs, (0 : Int) ≤ t.amount
    cases hr : editTxn now u i b s with
    | error e => exact h
    | ok s1 =>
      obtain ⟨t0, hf, hv0, hamt, hshape⟩ := editTxn_ok_shape now u i b s s1 hr
      intro t ht
      rw [hshape] at ht
      obtain ⟨y, hy, hxy⟩ := List.mem_map.mp ht
      by_cases hyid : y.id = i
      · rw [← hxy, setTx_self hyid]
        exact hamt
      · rw [← hxy, setTx_other hyid]
        exact h y hy
  | delete now u i =>
    show ∀ t ∈ (match deleteTxn now u i s with
                | .ok s1 => s1
                | .error _ => s).txs, (0 : Int) ≤ t.amount
    cases hr : deleteTxn now u i s with
    | error e => exact h
    | ok s1 =>
      obtain ⟨t0, hf, hv0, hshape⟩ := deleteTxn_ok_shape now u i s s1 hr
      intro t ht
      rw [hshape] at ht
      exact h t (List.mem_of_mem_filter ht)
  | verify now u i =>
    show ∀ t ∈ (match verifyTxn now u i s with
                | .ok s1 => s1
                | .error _ => s).txs, (0 : Int) ≤ t.amount
    cases hr : verifyTxn now u i s with
    | error e => exact h
    | ok s1 =>
      obtain ⟨t0, hf, hv0, hshape⟩ := verifyTxn_ok_shape now u i s s1 hr
      intro t ht
      rw [hshape] at ht
      obtain ⟨y, hy, hxy⟩ := List.mem_map.mp ht
      by_cases hyid : y.id = i
      · rw [← hxy, setTx_self hyid]
        show 0 ≤ t0.amount
        exact h t0 (findTx_mem s.txs i t0 hf)
      · rw [← hxy, setTx_other hyid]
        exact h y hy

theorem amount_nonneg_foldl (ops : List Op) :
    ∀ s : ServerState, (∀ t ∈ s.txs, 0 ≤ t.amount) →
      ∀ t ∈ (ops.foldl execOp s).txs, 0 ≤ t.amount := by
  induction ops with
  | nil => intro s h; exact h
  | cons op ops ih =>
    intro s h
    exact ih (execOp s op) (amount_nonneg_execOp s op h)

/-- C6 (amended): every transaction present after any request sequence has
a non-negative amount — `addTxnSchema` rejects `amount ≤ 0` payloads with
a `ValidationError` before any mutation, while an edit is bounded only by
the mongoose `min: 0` validator, so `amount = 0` is storable through an
edit; and no operation compares `from` with `to` (the counterexample
stores a transaction with `from = to`). -/
theorem c6_amount_validated_from_to_not :
    (∀ (chats : String → Option (List String)) (ops : List Op),
      ∀ t ∈ (execOps chats ops).txs, 0 ≤ t.amount) ∧
    (∀ (now : DateT) (u0 : String) (b : AddBody) (s : ServerState),
      b.amount ≤ 0 →
        addRoute now u0 b s = .error .validationFailed ∧
          isValidationError .validationFailed = true) := by
  constructor
  · intro chats ops
    exact amount_nonneg_foldl ops (initState chats)
      (fun t ht => absurd ht (List.not_mem_nil t))
  · intro now u0 b s hamt
    refine ⟨?_, rfl⟩
    have hs : ¬ (addTxnSchemaOk b = true) := by
      unfold addTxnSchemaOk
      simp only [Bool.and_eq_true, decide_eq_true_eq]
      intro hcontra
      have := hcontra.1.1.1.2
      omega
    unfold addRoute
    rw [if_neg hs]

/-- C6 counterexample: a schema-valid payload whose `from` and `to` are the
same member passes validation and every controller guard; the created
transaction is stored with `from = to`, violating the claimed invariant
and never seeing a `ValidationError`. -/
theorem c6_counterexample :
    (execOps
        (fun c => if c = "cccccccccccccccccccccccc"
                  then some ["aaaaaaaaaaaaaaaaaaaaaaaa",
                             "bbbbbbbbbbbbbbbbbbbbbbbb"]
                  else none)
        [Op.add (DateT.mk 2025 10 11) "aaaaaaaaaaaaaaaaaaaaaaaa"
          { chatId := "cccccccccccccccccccccccc", amount := 100
            date := DateT.mk 2025 10 5, remarks := none
            toU := "aaaaaaaaaaaaaaaaaaaaaaaa"
            fromU := "aaaaaaaaaaaaaaaaaaaaaaaa" }]).txs.map
      (fun t => (t.fromU == t.toU, t.amount)) = [(true, 100)] := by
  rfl

theorem c6_witness :
    ((-3 : Int) ≤ 0) ∧
    addRoute (DateT.mk 2025 10 11) "aaaaaaaaaaaaaaaaaaaaaaaa"
        { chatId := "cccccccccccccccccccccccc", amount := -3
          date := DateT.mk 2025 10 5, remarks := none
          toU := "bbbbbbbbbbbbbbbbbbbbbbbb"
          fromU := "aaaaaaaaaaaaaaaaaaaaaaaa" }
        (initState fun _ => none) = .error .validationFailed := by
  refine ⟨by decide, ?_⟩
  exact (c6_amount_validated_from_to_not.2 (DateT.mk 2025 10 11)
    "aaaaaaaaaaaaaaaaaaaaaaaa"
    { chatId := "cccccccccccccccccccccccc", amount := -3
      date := DateT.mk 2025 10 5, remarks := none
      toU := "bbbbbbbbbbbbbbbbbbbbbbbb"
      fromU := "aaaaaaaaaaaaaaaaaaaaaaaa" }
    (initState fun _ => none) (by decide)).1

/-- C8: in any reachable state, `editTxn` and `deleteTxn` on a verified
transaction are rejected — with the `InvalidState` errors `editVerified` /
`deleteVerified` when the caller owns the transaction, and with the
`Forbidden` ownership error otherwise — the rejected request leaves the
whole state unchanged, and no request of any kind removes or rewrites a
verified transaction (in particular no operation un-verifies it). -/
theorem c8_verified_is_immutable (chats : String → Option (List String))
    (ops : List Op) (i : Nat) (t : Txn) (now : DateT) (caller : String)
    (b : EditBody) (hf : findTx (execOps chats ops) i = some t)
    (hv : t.verified = true) :
    editTxn now caller i b (execOps chats ops) =
        .error (if caller = t.addedBy then .editVerified
                else .notOwnTxnEdit) ∧
      deleteTxn now caller i (execOps chats ops) =
        .error (if caller = t.addedBy then .deleteVerified
                else .notOwnTxnDelete) ∧
      isInvalidState .editVerified = true ∧
      isInvalidState .deleteVerified = true ∧
      execOp (execOps chats ops) (Op.edit now caller i b) =
        execOps chats ops ∧
      execOp (execOps chats ops) (Op.delete now caller i) =
        execOps chats ops ∧
      (∀ op : Op, t ∈ (execOp (execOps chats ops) op).txs) := by
  have hmem : t ∈ (execOps chats ops).txs :=
    findTx_mem (execOps chats ops).txs i t hf
  have hed : editTxn now caller i b (execOps chats ops) =
      .error (if caller = t.addedBy then .editVerified
              else .notOwnTxnEdit) := by
    unfold editTxn
    rw [hf]
    dsimp only
    by_cases hc : t.addedBy = caller
    · rw [if_neg (not_not_intro hc), if_pos hv, if_pos hc.symm]
    · rw [if_pos hc, if_neg (fun he => hc he.symm)]
  have hdel : deleteTxn now caller i (execOps chats ops) =
      .error (if caller = t.addedBy then .deleteVerified
              else .notOwnTxnDelete) := by
    unfold deleteTxn
    rw [hf]
    dsimp only
    by_cases hc : t.addedBy = caller
    · rw [if_neg (not_not_intro hc), if_pos hv, if_pos hc.symm]
    · rw [if_pos hc, if_neg (fun he => hc he.symm)]
  refine ⟨hed, hdel, rfl, rfl, ?_, ?_, ?_⟩
  · show (match editTxn now caller i b (execOps chats ops) with
          | .ok s1 => s1
          | .error _ => execOps chats ops) = execOps chats ops
    rw [hed]
  · show (match deleteTxn now caller i (execOps chats ops) with
          | .ok s1 => s1
          | .error _ => execOps chats ops) = execOps chats ops
    rw [hdel]
  · exact verified_stable (execOps chats ops) (inv_execOps chats ops) t
      hmem hv

theorem c8_witness :
    findTx
        (execOps
          (fun c => if c = "cccccccccccccccccccccccc"
                    then some ["aaaaaaaaaaaaaaaaaaaaaaaa",
                               "bbbbbbbbbbbbbbbbbbbbbbbb"]
                    else none)
          [Op.add (DateT.mk 2025 10 11) "aaaaaaaaaaaaaaaaaaaaaaaa"
            { chatId := "cccccccccccccccccccccccc", amount := 100
              date := DateT.mk 2025 10 5, remarks := none
              toU := "bbbbbbbbbbbbbbbbbbbbbbbb"
              fromU := "aaaaaaaaaaaaaaaaaaaaaaaa" },
           Op.verify (DateT.mk 2025 10 12) "bbbbbbbbbbbbbbbbbbbbbbbb" 0]) 0
      = some
        { id := 0, chatId := "cccccccccccccccccccccccc", amount := 100
          date := DateT.mk 2025 10 5, remarks := none
          toU := "bbbbbbbbbbbbbbbbbbbbbbbb"
          fromU := "aaaaaaaaaaaaaaaaaaaaaaaa"
          addedBy := "aaaaaaaaaaaaaaaaaaaaaaaa", verified := true
          verifiedBy := some "bbbbbbbbbbbbbbbbbbbbbbbb"
          verifiedAt := some (DateT.mk 2025 10 12) } ∧
    editTxn (DateT.mk 2025 10 13) "aaaaaaaaaaaaaaaaaaaaaaaa" 0
        { amount := some 1, date := none, remarks := none, toU := none
          fromU := none }
        (execOps
          (fun c => if c = "cccccccccccccccccccccccc"
                    then some ["aaaaaaaaaaaaaaaaaaaaaaaa",
                               "bbbbbbbbbbbbbbbbbbbbbbbb"]
                    else none)
          [Op.add (DateT.mk 2025 10 11) "aaaaaaaaaaaaaaaaaaaaaaaa"
            { chatId := "cccccccccccccccccccccccc", amount := 100
              date := DateT.mk 2025 10 5, remarks := none
              toU := "bbbbbbbbbbbbbbbbbbbbbbbb"
              fromU := "aaaaaaaaaaaaaaaaaaaaaaaa" },
           Op.verify (DateT.mk 2025 10 12) "bbbbbbbbbbbbbbbbbbbbbbbb" 0]) =
      .error (if "aaaaaaaaaaaaaaaaaaaaaaaa" =
          (Txn.addedBy
            { id := 0, chatId := "cccccccccccccccccccccccc", amount := 100
              date := DateT.mk 2025 10 5, remarks := none
              toU := "bbbbbbbbbbbbbbbbbbbbbbbb"
              fromU := "aaaaaaaaaaaaaaaaaaaaaaaa"
              addedBy := "aaaaaaaaaaaaaaaaaaaaaaaa", verified := true
              verifiedBy := some "bbbbbbbbbbbbbbbbbbbbbbbb"
              verifiedAt := some (DateT.mk 2025 10 12) })
        then TxError.editVerified else TxError.notOwnTxnEdit) := by
  refine ⟨by decide, ?_⟩
  exact (c8_verified_is_immutable
    (fun c => if c = "cccccccccccccccccccccccc"
              then some ["aaaaaaaaaaaaaaaaaaaaaaaa",
                         "bbbbbbbbbbbbbbbbbbbbbbbb"]
              else none)
    [Op.add (DateT.mk 2025 10 11) "aaaaaaaaaaaaaaaaaaaaaaaa"
      { chatId := "cccccccccccccccccccccccc", amount := 100
        date := DateT.mk 2025 10 5, remarks := none
        toU := "bbbbbbbbbbbbbbbbbbbbbbbb"
        fromU := "aaaaaaaaaaaaaaaaaaaaaaaa" },
     Op.verify (DateT.mk 2025 10 12) "bbbbbbbbbbbbbbbbbbbbbbbb" 0] 0
    { id := 0, chatId := "cccccccccccccccccccccccc", amount := 100
      date := DateT.mk 2025 10 5, remarks := none
      toU := "bbbbbbbbbbbbbbbbbbbbbbbb"
      fromU := "aaaaaaaaaaaaaaaaaaaaaaaa"
      addedBy := "aaaaaaaaaaaaaaaaaaaaaaaa", verified := true
      verifiedBy := some "bbbbbbbbbbbbbbbbbbbbbbbb"
      verifiedAt := some (DateT.mk 2025 10 12) }
    (DateT.mk 2025 10 13) "aaaaaaaaaaaaaaaaaaaaaaaa"
    { amount := some 1, date := none, remarks := none, toU := none
      fromU := none }
    (by decide) (by decide)).1

/-- C9: `verifyTxn` rejects with the `Forbidden` error when the caller is
the recorded `addedBy` (this guard runs first), rejects with
`InvalidState` when the transaction is already verified, and otherwise
succeeds, setting `verified = true` and recording `verifiedBy` and
`verifiedAt`, with the MonthlySummary collection left untouched. -/
theorem c9_verify_guards_and_effect (now : DateT) (caller : String)
    (i : Nat) (s : ServerState) (t : Txn) (hf : findTx s i = some t) :
    (caller = t.addedBy →
      verifyTxn now caller i s = .error .notOwnTxnVerify ∧
        isForbidden .notOwnTxnVerify = true) ∧
    (¬ caller = t.addedBy → t.verified = true →
      verifyTxn now caller i s = .error .alreadyVerified ∧
        isInvalidState .alreadyVerified = true) ∧
    (¬ caller = t.addedBy → t.verified = false →
      verifyTxn now caller i s = .ok
          { s with txs := s.txs.map (setTx i
              { t with verified := true, verifiedBy := some caller
                       verifiedAt := some now }) } ∧
        (∀ s1, verifyTxn now caller i s = .ok s1 →
          s1.summaries = s.summaries)) := by
  refine ⟨fun hc => ⟨?_, rfl⟩, fun hc hv => ⟨?_, rfl⟩, fun hc hv => ?_⟩
  · unfold verifyTxn
    rw [hf]
    dsimp only
    rw [if_pos hc.symm]
  · unfold verifyTxn
    rw [hf]
    dsimp only
    rw [if_neg (fun he => hc he.symm), if_pos hv]
  · have hok : verifyTxn now caller i s = .ok
        { s with txs := s.txs.map (setTx i
            { t with verified := true, verifiedBy := some caller
                     verifiedAt := some now }) } := by
      unfold verifyTxn
      rw [hf]
      dsimp only
      rw [if_neg (fun he => hc he.symm), if_neg (by simp [hv])]
    refine ⟨hok, fun s1 h1 => ?_⟩
    rw [hok] at h1
    injection h1 with h2
    rw [← h2]

theorem c9_witness :
    findTx
        { txs := [{ id := 0, chatId := "cccccccccccccccccccccccc"
                    amount := 100, date := DateT.mk 2025 10 5
                    remarks := none, toU := "bbbbbbbbbbbbbbbbbbbbbbbb"
                    fromU := "aaaaaaaaaaaaaaaaaaaaaaaa"
                    addedBy := "aaaaaaaaaaaaaaaaaaaaaaaa"
                    verified := false, verifiedBy := none
                    verifiedAt := none }]
          summaries := fun _ => none, chats := fun _ => none, nextId := 1 }
        0 = some
        { id := 0, chatId := "cccccccccccccccccccccccc", amount := 100
          date := DateT.mk 2025 10 5, remarks := none
          toU := "bbbbbbbbbbbbbbbbbbbbbbbb"
          fromU := "aaaaaaaaaaaaaaaaaaaaaaaa"
          addedBy := "aaaaaaaaaaaaaaaaaaaaaaaa", verified := false
          verifiedBy := none, verifiedAt := none } ∧
    (verifyTxn (DateT.mk 2025 10 12) "aaaaaaaaaaaaaaaaaaaaaaaa" 0
        { txs := [{ id := 0, chatId := "cccccccccccccccccccccccc"
                    amount := 100, date := DateT.mk 2025 10 5
                    remarks := none, toU := "bbbbbbbbbbbbbbbbbbbbbbbb"
                    fromU := "aaaaaaaaaaaaaaaaaaaaaaaa"
                    addedBy := "aaaaaaaaaaaaaaaaaaaaaaaa"
                    verified := false, verifiedBy := none
                    verifiedAt := none }]
          summaries := fun _ => none, chats := fun _ => none, nextId := 1 }
      = .error .notOwnTxnVerify ∧
      isForbidden .notOwnTxnVerify = true) := by
  refine ⟨by decide, ?_⟩
  exact (c9_verify_guards_and_effect (DateT.mk 2025 10 12)
    "aaaaaaaaaaaaaaaaaaaaaaaa" 0
    { txs := [{ id := 0, chatId := "cccccccccccccccccccccccc"
                amount := 100, date := DateT.mk 2025 10 5
                remarks := none, toU := "bbbbbbbbbbbbbbbbbbbbbbbb"
                fromU := "aaaaaaaaaaaaaaaaaaaaaaaa"
                addedBy := "aaaaaaaaaaaaaaaaaaaaaaaa"
                verified := false, verifiedBy := none
                verifiedAt := none }]
      summaries := fun _ => none, chats := fun _ => none, nextId := 1 }
    { id := 0, chatId := "cccccccccccccccccccccccc", amount := 100
      date := DateT.mk 2025 10 5, remarks := none
      toU := "bbbbbbbbbbbbbbbbbbbbbbbb"
      fromU := "aaaaaaaaaaaaaaaaaaaaaaaa"
      addedBy := "aaaaaaaaaaaaaaaaaaaaaaaa", verified := false
      verifiedBy := none, verifiedAt := none }
    (by decide)).1 (by decide)

/-- C10 (implicit): `verifyTxn` never consults the chat membership list: an
authenticated caller who differs from `addedBy` — even one who is not a
member of the transaction's chat — successfully verifies any existing
unverified transaction. -/
theorem c10_verify_ignores_membership (now : DateT) (caller : String)
    (i : Nat) (s : ServerState) (t : Txn) (members : List String)
    (hf : findTx s i = some t) (hv : t.verified = false)
    (hne : ¬ caller = t.addedBy)
    (hchat : s.chats t.chatId = some members) (hout : caller ∉ members) :
    verifyTxn now caller i s = .ok
      { s with txs := s.txs.map (setTx i
          { t with verified := true, verifiedBy := some caller
                   verifiedAt := some now }) } := by
  unfold verifyTxn
  rw [hf]
  dsimp only
  rw [if_neg (fun he => hne he.symm), if_neg (by simp [hv])]

theorem c10_witness :
    ("dddddddddddddddddddddddd" ∉
      ["aaaaaaaaaaaaaaaaaaaaaaaa", "bbbbbbbbbbbbbbbbbbbbbbbb"]) ∧
    verifyTxn (DateT.mk 2025 10 12) "dddddddddddddddddddddddd" 0
        { txs := [{ id := 0, chatId := "cccccccccccccccccccccccc"
                    amount := 100, date := DateT.mk 2025 10 5
                    remarks := none, toU := "bbbbbbbbbbbbbbbbbbbbbbbb"
                    fromU := "aaaaaaaaaaaaaaaaaaaaaaaa"
                    addedBy := "aaaaaaaaaaaaaaaaaaaaaaaa"
                    verified := false, verifiedBy := none
                    verifiedAt := none }]
          summaries := fun _ => none
          chats := fun c => if c = "cccccccccccccccccccccccc"
                            then some ["aaaaaaaaaaaaaaaaaaaaaaaa",
                                       "bbbbbbbbbbbbbbbbbbbbbbbb"]
                            else none
          nextId := 1 }
      = .ok
        { txs := [{ id := 0, chatId := "cccccccccccccccccccccccc"
                    amount := 100, date := DateT.mk 2025 10 5
                    remarks := none, toU := "bbbbbbbbbbbbbbbbbbbbbbbb"
                    fromU := "aaaaaaaaaaaaaaaaaaaaaaaa"
                    addedBy := "aaaaaaaaaaaaaaaaaaaaaaaa"
                    verified := true
                    verifiedBy := some "dddddddddddddddddddddddd"
                    verifiedAt := some (DateT.mk 2025 10 12) }]
          summaries := fun _ => none
          chats := fun c => if c = "cccccccccccccccccccccccc"
                            then some ["aaaaaaaaaaaaaaaaaaaaaaaa",
                                       "bbbbbbbbbbbbbbbbbbbbbbbb"]
                            else none
          nextId := 1 } := by
  constructor
  · decide
  · have h := c10_verify_ignores_membership (DateT.mk 2025 10 12)
      "dddddddddddddddddddddddd" 0
      { txs := [{ id := 0, chatId := "cccccccccccccccccccccccc"
                  amount := 100, date := DateT.mk 2025 10 5
                  remarks := none, toU := "bbbbbbbbbbbbbbbbbbbbbbbb"
                  fromU := "aaaaaaaaaaaaaaaaaaaaaaaa"
                  addedBy := "aaaaaaaaaaaaaaaaaaaaaaaa"
                  verified := false, verifiedBy := none
                  verifiedAt := none }]
        summaries := fun _ => none
        chats := fun c => if c = "cccccccccccccccccccccccc"
                          then some ["aaaaaaaaaaaaaaaaaaaaaaaa",
                                     "bbbbbbbbbbbbbbbbbbbbbbbb"]
                          else none
        nextId := 1 }
      { id := 0, chatId := "cccccccccccccccccccccccc", amount := 100
        date := DateT.mk 2025 10 5, remarks := none
        toU := "bbbbbbbbbbbbbbbbbbbbbbbb"
        fromU := "aaaaaaaaaaaaaaaaaaaaaaaa"
        addedBy := "aaaaaaaaaaaaaaaaaaaaaaaa", verified := false
        verifiedBy := none, verifiedAt := none }
      ["aaaaaaaaaaaaaaaaaaaaaaaa", "bbbbbbbbbbbbbbbbbbbbbbbb"]
      (by decide) (by decide) (by decide) (by decide) (by decide)
    exact h

theorem incDoc_incDoc (doc : SummaryDoc) (f t : String) (a1 d1 a2 d2 : Int) :
    incDoc (incDoc doc f t a1 d1) f t a2 d2 =
      incDoc doc f t (a1 + a2) (d1 + d2) := by
  unfold incDoc
  congr 1
  · funext u
    have hiff : ∀ (x : Int) (p : Prop) [inst : Decidable p],
        (x + (if p then a1 else 0)) + (if p then a2 else 0) =
          x + (if p then a1 + a2 else 0) := by
      intro x p inst
      by_cases hc : p <;> simp [hc] <;> ring
    simp only [MStats.mk.injEq]
    exact ⟨hiff _ _, hiff _ _⟩
  · ring

theorem incDoc_zero (doc : SummaryDoc) (f t : String) :
    incDoc doc f t 0 0 = doc := by
  unfold incDoc
  cases doc with
  | mk mem cnt => simp

/-- C4: an edit that moves a transaction to a different (year, month) with
the direction unchanged is processed as `updateSummaryOnDelete` of the old
snapshot followed by `updateSummaryOnAdd` of the new one: the old month's
document loses the full contribution (`totalSent[from]`,
`totalReceived[to]`, `txCount`) and the new month's document (upserted)
gains it in full. -/
theorem c4_cross_month_edit_is_delete_then_add (m : SummaryMap) (c : String)
    (oldTx newTx : TxFields)
    (hm : getYearMonth oldTx.date ≠ getYearMonth newTx.date)
    (hdir : oldTx.fromU = newTx.fromU ∧ oldTx.toU = newTx.toU) :
    updateSummaryOnEdit m c oldTx newTx =
        updateSummaryOnAdd
          (updateSummaryOnDelete m c oldTx.date oldTx.fromU oldTx.toU
            oldTx.amount)
          c newTx.date newTx.fromU newTx.toU newTx.amount ∧
      (∀ doc, m (c, oldTx.date.year, oldTx.date.month) = some doc →
        updateSummaryOnEdit m c oldTx newTx
            (c, oldTx.date.year, oldTx.date.month) =
          some (incDoc doc oldTx.fromU oldTx.toU (-oldTx.amount) (-1))) ∧
      updateSummaryOnEdit m c oldTx newTx
          (c, newTx.date.year, newTx.date.month) =
        some (incDoc
          ((m (c, newTx.date.year, newTx.date.month)).getD zeroDoc)
          newTx.fromU newTx.toU newTx.amount 1) := by
  have hnot : ¬ ((((getYearMonth oldTx.date).1 = (getYearMonth newTx.date).1 ∧
      (getYearMonth oldTx.date).2 = (getYearMonth newTx.date).2)) ∧
      (oldTx.fromU = newTx.fromU ∧ oldTx.toU = newTx.toU)) := by
    intro hcontra
    exact hm (Prod.ext hcontra.1.1 hcontra.1.2)
  have hkne : ((c, oldTx.date.year, oldTx.date.month) : SKey) ≠
      (c, newTx.date.year, newTx.date.month) := by
    intro he
    apply hm
    simp only [Prod.mk.injEq] at he
    simp only [getYearMonth, Prod.mk.injEq]
    exact he.2
  have hmain : updateSummaryOnEdit m c oldTx newTx =
      updateSummaryOnAdd
        (updateSummaryOnDelete m c oldTx.date oldTx.fromU oldTx.toU
          oldTx.amount)
        c newTx.date newTx.fromU newTx.toU newTx.amount := by
    unfold updateSummaryOnEdit
    rw [if_neg hnot]
  refine ⟨hmain, fun doc hdoc => ?_, ?_⟩
  · rw [hmain]
    simp only [updateSummaryOnAdd, updateSummaryOnDelete, getYearMonth]
    simp [hkne, hdoc]
  · rw [hmain]
    simp only [updateSummaryOnAdd, updateSummaryOnDelete, getYearMonth]
    simp [Ne.symm hkne]

theorem c4_witness :
    (getYearMonth (DateT.mk 2025 6 15) ≠ getYearMonth (DateT.mk 2025 7 2)) ∧
    updateSummaryOnEdit (fun _ => none) "cccccccccccccccccccccccc"
        { date := DateT.mk 2025 6 15, fromU := "aaaaaaaaaaaaaaaaaaaaaaaa"
          toU := "bbbbbbbbbbbbbbbbbbbbbbbb", amount := 100 }
        { date := DateT.mk 2025 7 2, fromU := "aaaaaaaaaaaaaaaaaaaaaaaa"
          toU := "bbbbbbbbbbbbbbbbbbbbbbbb", amount := 100 }
        ("cccccccccccccccccccccccc", (2025 : Int), (7 : Int)) =
      some (incDoc
        (((fun _ => (none : Option SummaryDoc))
            ("cccccccccccccccccccccccc", (2025 : Int), (7 : Int))).getD
          zeroDoc)
        "aaaaaaaaaaaaaaaaaaaaaaaa" "bbbbbbbbbbbbbbbbbbbbbbbb" 100 1) := by
  refine ⟨by decide, ?_⟩
  exact (c4_cross_month_edit_is_delete_then_add (fun _ => none)
    "cccccccccccccccccccccccc"
    { date := DateT.mk 2025 6 15, fromU := "aaaaaaaaaaaaaaaaaaaaaaaa"
      toU := "bbbbbbbbbbbbbbbbbbbbbbbb", amount := 100 }
    { date := DateT.mk 2025 7 2, fromU := "aaaaaaaaaaaaaaaaaaaaaaaa"
      toU := "bbbbbbbbbbbbbbbbbbbbbbbb", amount := 100 }
    (by decide) ⟨rfl, rfl⟩).2.2

/-- C7: for a same-(year, month), same-direction edit, the single signed
delta `diff = newAmount - oldAmount` (skipped when `diff = 0`) produces
exactly the summary state of `updateSummaryOnDelete(old)` followed by
`updateSummaryOnAdd(new)`, provided the period's summary document exists —
which the second conjunct shows always holds in reachable states for the
period of any existing transaction. -/
theorem c7_delta_equals_delete_then_add (m : SummaryMap) (c : String)
    (oldTx newTx : TxFields)
    (hm : getYearMonth oldTx.date = getYearMonth newTx.date)
    (hdir : oldTx.fromU = newTx.fromU ∧ oldTx.toU = newTx.toU)
    (hdoc : (m (c, oldTx.date.year, oldTx.date.month)).isSome = true) :
    updateSummaryOnEdit m c oldTx newTx =
        updateSummaryOnAdd
          (updateSummaryOnDelete m c oldTx.date oldTx.fromU oldTx.toU
            oldTx.amount)
          c newTx.date newTx.fromU newTx.toU newTx.amount ∧
      (∀ (chats : String → Option (List String)) (ops : List Op) (t : Txn),
        t ∈ (execOps chats ops).txs →
          ((execOps chats ops).summaries (keyOf t)).isSome = true) := by
  refine ⟨?_, fun chats ops t ht => (inv_execOps chats ops).2.1 t ht⟩
  have hy : oldTx.date.year = newTx.date.year := congrArg Prod.fst hm
  have hmn : oldTx.date.month = newTx.date.month := congrArg Prod.snd hm
  obtain ⟨doc, hdocEq⟩ := Option.isSome_iff_exists.mp hdoc
  have hdel : updateSummaryOnDelete m c oldTx.date oldTx.fromU oldTx.toU
      oldTx.amount =
      fun k => if k = (c, oldTx.date.year, oldTx.date.month)
               then some (incDoc doc oldTx.fromU oldTx.toU (-oldTx.amount)
                 (-1))
               else m k := by
    funext k
    simp only [updateSummaryOnDelete, getYearMonth]
    by_cases hk : k = (c, oldTx.date.year, oldTx.date.month)
    · simp [hk, hdocEq]
    · simp [hk]
  have hkeyN : ((c, newTx.date.year, newTx.date.month) : SKey) =
      (c, oldTx.date.year, oldTx.date.month) := by
    rw [← hy, ← hmn]
  funext k
  simp only [updateSummaryOnEdit, updateSummaryOnAdd, getYearMonth]
  rw [if_pos ⟨⟨hy, hmn⟩, hdir⟩, hdel]
  simp only [hkeyN]
  by_cases hdiff : newTx.amount - oldTx.amount = 0
  · rw [if_pos hdiff]
    by_cases hk : k = (c, oldTx.date.year, oldTx.date.month)
    · have hz : -oldTx.amount + newTx.amount = 0 := by omega
      simp only [hk, if_pos, hdocEq, ← hdir.1, ← hdir.2, Option.getD_some,
        incDoc_incDoc, hz, incDoc_zero]
      simp [hdocEq, incDoc_zero]
    · simp [hk]
  · rw [if_neg hdiff]
    by_cases hk : k = (c, oldTx.date.year, oldTx.date.month)
    · have hz : -oldTx.amount + newTx.amount = newTx.amount - oldTx.amount :=
        by ring
      simp only [hk, if_pos, hdocEq, ← hdir.1, ← hdir.2, Option.getD_some,
        Option.map_some, incDoc_incDoc, hz]
      simp [hdocEq]
    · simp [hk]

theorem c7_witness :
    (getYearMonth (DateT.mk 2025 6 15) = getYearMonth (DateT.mk 2025 6 20)) ∧
    (((fun k => if k = (("cccccccccccccccccccccccc", (2025 : Int), (6 : Int))
          : SKey)
        then some zeroDoc else none)
        ("cccccccccccccccccccccccc", (2025 : Int), (6 : Int))).isSome
      = true) ∧
    updateSummaryOnEdit
        (fun k => if k = (("cccccccccccccccccccccccc", (2025 : Int),
            (6 : Int)) : SKey)
          then some zeroDoc else none)
        "cccccccccccccccccccccccc"
        { date := DateT.mk 2025 6 15, fromU := "aaaaaaaaaaaaaaaaaaaaaaaa"
          toU := "bbbbbbbbbbbbbbbbbbbbbbbb", amount := 100 }
        { date := DateT.mk 2025 6 20, fromU := "aaaaaaaaaaaaaaaaaaaaaaaa"
          toU := "bbbbbbbbbbbbbbbbbbbbbbbb", amount := 150 } =
      updateSummaryOnAdd
        (updateSummaryOnDelete
          (fun k => if k = (("cccccccccccccccccccccccc", (2025 : Int),
              (6 : Int)) : SKey)
            then some zeroDoc else none)
          "cccccccccccccccccccccccc" (DateT.mk 2025 6 15)
          "aaaaaaaaaaaaaaaaaaaaaaaa" "bbbbbbbbbbbbbbbbbbbbbbbb" 100)
        "cccccccccccccccccccccccc" (DateT.mk 2025 6 20)
        "aaaaaaaaaaaaaaaaaaaaaaaa" "bbbbbbbbbbbbbbbbbbbbbbbb" 150 := by
  refine ⟨by decide, by decide, ?_⟩
  exact (c7_delta_equals_delete_then_add
    (fun k => if k = (("cccccccccccccccccccccccc", (2025 : Int), (6 : Int))
        : SKey)
      then some zeroDoc else none)
    "cccccccccccccccccccccccc"
    { date := DateT.mk 2025 6 15, fromU := "aaaaaaaaaaaaaaaaaaaaaaaa"
      toU := "bbbbbbbbbbbbbbbbbbbbbbbb", amount := 100 }
    { date := DateT.mk 2025 6 20, fromU := "aaaaaaaaaaaaaaaaaaaaaaaa"
      toU := "bbbbbbbbbbbbbbbbbbbbbbbb", amount := 150 }
    (by decide) ⟨rfl, rfl⟩ (by decide)).1

/-! ## Carry-forward lemmas (C3) -/

theorem lookup_none_of_keys {β : Type} (l : List (String × β)) (u : String)
    (h : ∀ p ∈ l, p.1 ≠ u) : List.lookup u l = none := by
  induction l with
  | nil => rfl
  | cons a l ih =>
    obtain ⟨k, bv⟩ := a
    have hk : k ≠ u := h (k, bv) (List.mem_cons_self _ l)
    have hne : (u == k) = false := by
      simp only [beq_eq_false_iff_ne]
      exact fun he => hk he.symm
    simp only [List.lookup, hne]
    exact ih (fun p hp => h p (List.mem_cons_of_mem _ hp))

theorem lookup_map_update (r : List (String × Int)) (u : String) (v : Int) :
    List.lookup u (r.map (fun p => if p.1 = u then (u, v) else p)) =
      (List.lookup u r).map (fun _ => v) := by
  induction r with
  | nil => rfl
  | cons a r ih =>
    obtain ⟨k, w⟩ := a
    by_cases hk : k = u
    · subst hk
      rw [List.map_cons, if_pos rfl]
      simp [List.lookup]
    · have hne : (u == k) = false := by
        simp only [beq_eq_false_iff_ne]
        exact fun he => hk he.symm
      simp only [List.map_cons]
      rw [if_neg (by simpa using hk)]
      simp only [List.lookup, hne]
      exact ih

theorem lookup_append_single (r : List (String × Int)) (u : String)
    (v : Int) :
    List.lookup u (r ++ [(u, v)]) = some ((List.lookup u r).getD v) := by
  induction r with
  | nil => simp [List.lookup]
  | cons a r ih =>
    obtain ⟨k, w⟩ := a
    by_cases hk : u = k
    · simp [List.lookup, hk]
    · have hne : (u == k) = false := by
        simp only [beq_eq_false_iff_ne]
        exact hk
      simp only [List.cons_append, List.lookup, hne]
      exact ih

theorem lookup_other_map_update (r : List (String × Int)) (u u2 : String)
    (v : Int) (h : u2 ≠ u) :
    List.lookup u2 (r.map (fun p => if p.1 = u then (u, v) else p)) =
      List.lookup u2 r := by
  induction r with
  | nil => rfl
  | cons a r ih =>
    obtain ⟨k, w⟩ := a
    by_cases hk : k = u
    · subst hk
      have hne : (u2 == k) = false := by
        simp only [beq_eq_false_iff_ne]
        exact h
      simp only [List.map_cons, if_pos rfl]
      simp only [List.lookup, hne]
      exact ih
    · simp only [List.map_cons]
      rw [if_neg (by simpa using hk)]
      simp only [List.lookup]
      cases hu2 : (u2 == k) with
      | true => rfl
      | false => exact ih

theorem lookup_append_single_other (r : List (String × Int))
    (u u2 : String) (v : Int) (h : u2 ≠ u) :
    List.lookup u2 (r ++ [(u, v)]) = List.lookup u2 r := by
  induction r with
  | nil =>
    have hne : (u2 == u) = false := by
      simp only [beq_eq_false_iff_ne]
      exact h
    simp [List.lookup, hne]
  | cons a r ih =>
    obtain ⟨k, w⟩ := a
    simp only [List.cons_append, List.lookup]
    cases hu2 : (u2 == k) with
    | true => rfl
    | false => exact ih

theorem lookup_recSet_self (r : List (String × Int)) (u : String) (v : Int) :
    List.lookup u (recSet r u v) = some v := by
  unfold recSet
  by_cases hp : (List.lookup u r).isSome = true
  · rw [if_pos hp, lookup_map_update]
    obtain ⟨w, hw⟩ := Option.isSome_iff_exists.mp hp
    rw [hw]
    rfl
  · rw [if_neg hp, lookup_append_single]
    have : List.lookup u r = none := by
      cases h2 : List.lookup u r with
      | none => rfl
      | some w => rw [h2] at hp; simp at hp
    rw [this]
    rfl

theorem lookup_recSet_other (r : List (String × Int)) (u u2 : String)
    (v : Int) (h : u2 ≠ u) :
    List.lookup u2 (recSet r u v) = List.lookup u2 r := by
  unfold recSet
  by_cases hp : (List.lookup u r).isSome = true
  · rw [if_pos hp]
    exact lookup_other_map_update r u u2 v h
  · rw [if_neg hp]
    exact lookup_append_single_other r u u2 v h

theorem accumMembers_lookup (entries : List (String × MStats)) :
    ∀ (acc : List (String × Int)) (u : String),
      (entries.map Prod.fst).Nodup →
      List.lookup u (accumMembers acc entries) =
        (match List.lookup u entries with
         | some st => some ((List.lookup u acc).getD 0 +
             (st.totalReceived - st.totalSent))
         | none => List.lookup u acc) := by
  induction entries with
  | nil => intro acc u _; rfl
  | cons e entries ih =>
    intro acc u hnd
    obtain ⟨k, st⟩ := e
    have hnd2 : (entries.map Prod.fst).Nodup := by
      simp only [List.map_cons, List.nodup_cons] at hnd
      exact hnd.2
    have hknotin : ∀ p ∈ entries, p.1 ≠ k := by
      intro p hp he
      simp only [List.map_cons, List.nodup_cons] at hnd
      exact hnd.1 (he ▸ List.mem_map_of_mem Prod.fst hp)
    show List.lookup u (accumMembers
      (recSet acc k ((List.lookup k acc).getD 0 +
        (st.totalReceived - st.totalSent))) entries) = _
    rw [ih _ u hnd2]
    by_cases hu : u = k
    · subst hu
      rw [lookup_none_of_keys entries u hknotin]
      simp only [List.lookup, beq_self_eq_true]
      rw [lookup_recSet_self]
    · have hne : (u == k) = false := by
        simp only [beq_eq_false_iff_ne]
        exact hu
      simp only [List.lookup, hne]
      rw [lookup_recSet_other acc k u _ hu]

theorem netOf_zero_of_none (ds : List MonthlySummaryDoc) (u : String)
    (h : ds.any (fun d => (List.lookup u d.members).isSome) = false) :
    (ds.map (netOf u)).sum = 0 := by
  induction ds with
  | nil => rfl
  | cons d ds ih =>
    simp only [List.any_cons, Bool.or_eq_false_iff] at h
    have hd : List.lookup u d.members = none := by
      cases h2 : List.lookup u d.members with
      | none => rfl
      | some w => rw [h2] at h; simp at h
    simp only [List.map_cons, List.sum_cons]
    rw [ih (by simp [h.2]), netOf]
    simp [hd]

theorem foldDocs_lookup (ds : List MonthlySummaryDoc) :
    ∀ (acc : List (String × Int)) (u : String),
      (∀ d ∈ ds, (d.members.map Prod.fst).Nodup) →
      List.lookup u (ds.foldl (fun a d => accumMembers a d.members) acc) =
        (if ds.any (fun d => (List.lookup u d.members).isSome) then
          some ((List.lookup u acc).getD 0 + (ds.map (netOf u)).sum)
         else List.lookup u acc) := by
  induction ds with
  | nil => intro acc u _; simp
  | cons d ds ih =>
    intro acc u hnd
    have hndd : (d.members.map Prod.fst).Nodup :=
      hnd d (List.mem_cons_self d ds)
    have hnds : ∀ d2 ∈ ds, (d2.members.map Prod.fst).Nodup :=
      fun d2 h2 => hnd d2 (List.mem_cons_of_mem d h2)
    show List.lookup u (ds.foldl (fun a d2 => accumMembers a d2.members)
      (accumMembers acc d.members)) = _
    rw [ih _ u hnds, accumMembers_lookup d.members acc u hndd]
    cases hmem : List.lookup u d.members with
    | some st =>
      have hany : ((d :: ds).any
          (fun d2 => (List.lookup u d2.members).isSome)) = true := by
        simp [List.any_cons, hmem]
      rw [hany, if_pos rfl]
      by_cases hds : ds.any (fun d2 => (List.lookup u d2.members).isSome)
          = true
      · rw [if_pos hds]
        simp only [List.map_cons, List.sum_cons, Option.getD_some, netOf,
          hmem]
        congr 1
        ring
      · rw [if_neg (by simp [hds])]
        have hzero := netOf_zero_of_none ds u (by
          cases h2 : ds.any (fun d2 => (List.lookup u d2.members).isSome)
          · rfl
          · exact absurd h2 hds)
        simp only [List.map_cons, List.sum_cons, netOf, hmem, hzero]
        congr 1
        ring
    | none =>
      have hany : ((d :: ds).any
          (fun d2 => (List.lookup u d2.members).isSome)) =
          ds.any (fun d2 => (List.lookup u d2.members).isSome) := by
        simp [List.any_cons, hmem]
      rw [hany]
      by_cases hds : ds.any (fun d2 => (List.lookup u d2.members).isSome)
          = true
      · rw [if_pos hds, if_pos hds]
        simp [List.map_cons, List.sum_cons, netOf, hmem]
      · rw [if_neg (by simp [hds]), if_neg (by simp [hds])]

theorem any_of_perm {α : Type} (l1 l2 : List α) (h : l1.Perm l2)
    (p : α → Bool) : l1.any p = l2.any p := by
  cases hb : l2.any p with
  | true =>
    obtain ⟨x, hx, hpx⟩ := List.any_eq_true.mp hb
    exact List.any_eq_true.mpr ⟨x, h.mem_iff.mpr hx, hpx⟩
  | false =>
    cases hb1 : l1.any p with
    | false => rfl
    | true =>
      obtain ⟨x, hx, hpx⟩ := List.any_eq_true.mp hb1
      have h2 := List.any_eq_true.mpr ⟨x, h.mem_iff.mp hx, hpx⟩
      rw [hb] at h2
      exact absurd h2 (by simp)

/-- C3: the carry-forward record maps each member to the sum of
`totalReceived - totalSent` over exactly the chat's summaries strictly
before the queried (year, month); documents of the queried month or later
contribute nothing; members present in no prior summary are simply absent
from the record (a `none` lookup, not an error). -/
theorem c3_carry_forward_sums_prior_months (docs : List MonthlySummaryDoc)
    (c : String) (y m : Int) (u : String)
    (hnd : ∀ d ∈ docs, (d.members.map Prod.fst).Nodup) :
    List.lookup u (getCarryForward docs c y m) =
      (if (docs.filter (priorToMonth c y m)).any
          (fun d => (List.lookup u d.members).isSome) then
        some (((docs.filter (priorToMonth c y m)).map (netOf u)).sum)
      else none) ∧
    (∀ d : MonthlySummaryDoc, d.chatId = c →
      priorToMonth c y m d = false →
      getCarryForward (docs ++ [d]) c y m = getCarryForward docs c y m) := by
  constructor
  · have hperm : ((docs.filter (priorToMonth c y m)).insertionSort
        ymLeDoc).Perm (docs.filter (priorToMonth c y m)) :=
      List.perm_insertionSort _ _
    have hnds : ∀ d ∈ (docs.filter (priorToMonth c y m)).insertionSort
        ymLeDoc, (d.members.map Prod.fst).Nodup := by
      intro d hd
      exact hnd d (List.mem_of_mem_filter (hperm.mem_iff.mp hd))
    show List.lookup u
      (((docs.filter (priorToMonth c y m)).insertionSort ymLeDoc).foldl
        (fun a d => accumMembers a d.members) []) = _
    rw [foldDocs_lookup _ [] u hnds,
      any_of_perm _ _ hperm (fun d => (List.lookup u d.members).isSome),
      (hperm.map (netOf u)).sum_eq]
    by_cases hany : (docs.filter (priorToMonth c y m)).any
        (fun d => (List.lookup u d.members).isSome) = true
    · rw [if_pos hany, if_pos hany]
      simp [List.lookup]
    · rw [if_neg hany, if_neg hany]
      rfl
  · intro d hdc hdp
    unfold getCarryForward
    rw [List.filter_append]
    simp [hdp]

theorem c3_witness :
    (∀ d ∈ [({ chatId := "cccccccccccccccccccccccc", year := 2025
               month := 5
               members := [("aaaaaaaaaaaaaaaaaaaaaaaa",
                 { totalSent := 30, totalReceived := 100 })]
               txCount := 1 } : MonthlySummaryDoc)],
      (d.members.map Prod.fst).Nodup) ∧
    List.lookup "aaaaaaaaaaaaaaaaaaaaaaaa"
        (getCarryForward
          [{ chatId := "cccccccccccccccccccccccc", year := 2025, month := 5
             members := [("aaaaaaaaaaaaaaaaaaaaaaaa",
               { totalSent := 30, totalReceived := 100 })]
             txCount := 1 }]
          "cccccccccccccccccccccccc" 2025 6) =
      (if ([({ chatId := "cccccccccccccccccccccccc", year := 2025
               month := 5
               members := [("aaaaaaaaaaaaaaaaaaaaaaaa",
                 { totalSent := 30, totalReceived := 100 })]
               txCount := 1 } : MonthlySummaryDoc)].filter
            (priorToMonth "cccccccccccccccccccccccc" 2025 6)).any
          (fun d => (List.lookup "aaaaaaaaaaaaaaaaaaaaaaaa"
            d.members).isSome) then
        some ((([({ chatId := "cccccccccccccccccccccccc", year := 2025
                    month := 5
                    members := [("aaaaaaaaaaaaaaaaaaaaaaaa",
                      { totalSent := 30, totalReceived := 100 })]
                    txCount := 1 } : MonthlySummaryDoc)].filter
            (priorToMonth "cccccccccccccccccccccccc" 2025 6)).map
          (netOf "aaaaaaaaaaaaaaaaaaaaaaaa")).sum)
      else none) := by
  refine ⟨by decide, ?_⟩
  exact (c3_carry_forward_sums_prior_months
    [{ chatId := "cccccccccccccccccccccccc", year := 2025, month := 5
       members := [("aaaaaaaaaaaaaaaaaaaaaaaa",
         { totalSent := 30, totalReceived := 100 })]
       txCount := 1 }]
    "cccccccccccccccccccccccc" 2025 6 "aaaaaaaaaaaaaaaaaaaaaaaa"
    (by decide)).1

/-! ## Pagination lemmas (C5) -/

theorem dateLt_trans {a b c : DateT} (h1 : dateLt a b = true)
    (h2 : dateLt b c = true) : dateLt a c = true := by
  simp only [dateLt, decide_eq_true_eq] at h1 h2 ⊢
  omega

theorem dateLt_asymm {a b : DateT} (h1 : dateLt a b = true) :
    dateLt b a = false := by
  cases hb : dateLt b a with
  | false => rfl
  | true =>
    exfalso
    simp only [dateLt, decide_eq_true_eq] at h1 hb
    omega

theorem dateLt_irrefl (a : DateT) : dateLt a a = false := by
  simp only [dateLt, decide_eq_false_iff_not]
  omega

theorem dateLt_connex {a b : DateT} (h1 : dateLt a b = false)
    (h2 : dateLt b a = false) : a = b := by
  cases a
  cases b
  simp only [dateLt, decide_eq_false_iff_not] at h1 h2
  simp only [DateT.mk.injEq]
  omega

instance : IsTotal Txn txLe :=
  ⟨fun a b => by
    unfold txLe
    by_cases h1 : dateLt b.date a.date = true
    · exact Or.inl (Or.inl h1)
    · by_cases h2 : dateLt a.date b.date = true
      · exact Or.inr (Or.inl h2)
      · have hf1 : dateLt b.date a.date = false := by simpa using h1
        have hf2 : dateLt a.date b.date = false := by simpa using h2
        have he : a.date = b.date := dateLt_connex hf2 hf1
        by_cases hid : b.id ≤ a.id
        · exact Or.inl (Or.inr ⟨he.symm, hid⟩)
        · exact Or.inr (Or.inr ⟨he, by omega⟩)⟩

instance : IsTrans Txn txLe :=
  ⟨fun a b c hab hbc => by
    unfold txLe at hab hbc ⊢
    rcases hab with h1 | ⟨h1e, h1i⟩ <;> rcases hbc with h2 | ⟨h2e, h2i⟩
    · exact Or.inl (dateLt_trans h2 h1)
    · exact Or.inl (h2e ▸ h1)
    · exact Or.inl (h1e ▸ h2)
    · exact Or.inr ⟨h2e.trans h1e, le_trans h2i h1i⟩⟩

instance : IsAntisymm Txn txBefore :=
  ⟨fun a b h1 h2 => by
    unfold txBefore at h1 h2
    rw [dateLt_asymm h1] at h2
    exact absurd h2 (by simp)⟩

theorem pairwise_txBefore_of_sorted (l : List Txn)
    (hs : List.Sorted txLe l)
    (hnd : (l.map (fun t => t.date)).Nodup) : l.Pairwise txBefore := by
  have hp : l.Pairwise (fun a b => a.date ≠ b.date) :=
    (List.pairwise_map).mp hnd
  refine (hs.and hp).imp ?_
  intro a b hab
  obtain ⟨hle, hne⟩ := hab
  unfold txLe at hle
  rcases hle with h1 | ⟨h1e, _⟩
  · exact h1
  · exact absurd h1e.symm hne

theorem insertionSort_filter_comm (l : List Txn) (p : Txn → Bool)
    (hnd : (l.map (fun t => t.date)).Nodup) :
    (l.filter p).insertionSort txLe =
      (l.insertionSort txLe).filter p := by
  have hperm1 : ((l.filter p).insertionSort txLe).Perm (l.filter p) :=
    List.perm_insertionSort txLe (l.filter p)
  have hperm2 : ((l.insertionSort txLe).filter p).Perm (l.filter p) :=
    (List.perm_insertionSort txLe l).filter p
  have hndSort : ((l.insertionSort txLe).map (fun t => t.date)).Nodup :=
    (((List.perm_insertionSort txLe l).map (fun t => t.date)).nodup_iff).mpr
      hnd
  have hnd1 : (((l.filter p).insertionSort txLe).map
      (fun t => t.date)).Nodup := by
    have hsub : ((l.filter p).map (fun t => t.date)).Nodup :=
      List.Nodup.sublist ((List.filter_sublist l).map (fun t => t.date)) hnd
    exact (((List.perm_insertionSort txLe (l.filter p)).map
      (fun t => t.date)).nodup_iff).mpr hsub
  have hs1 : ((l.filter p).insertionSort txLe).Pairwise txBefore :=
    pairwise_txBefore_of_sorted _
      (List.sorted_insertionSort txLe (l.filter p)) hnd1
  have hs2 : ((l.insertionSort txLe).filter p).Pairwise txBefore :=
    (pairwise_txBefore_of_sorted _ (List.sorted_insertionSort txLe l)
      hndSort).filter p
  exact List.eq_of_perm_of_sorted (hperm1.trans hperm2.symm) hs1 hs2

theorem filter_lt_get (l : List Txn) (hp : l.Pairwise txBefore) :
    ∀ (j : Nat) (tj : Txn), l[j]? = some tj →
      l.filter (fun t => dateLt t.date tj.date) = l.drop (j + 1) := by
  induction l with
  | nil => intro j tj hj; simp at hj
  | cons a l ih =>
    intro j tj hj
    cases j with
    | zero =>
      have ha : a = tj := by simpa using hj
      subst ha
      rw [List.filter_cons, if_neg (by simp [dateLt_irrefl])]
      have hall : ∀ x ∈ l, dateLt x.date a.date = true := by
        intro x hx
        exact List.rel_of_pairwise_cons hp hx
      rw [List.filter_eq_self.mpr (fun x hx => by simp [hall x hx])]
      rfl
    | succ j =>
      have hj2 : l[j]? = some tj := by simpa using hj
      have htj : tj ∈ l := by
        obtain ⟨hlt, hget⟩ := List.getElem?_eq_some.mp hj2
        exact hget ▸ List.getElem_mem hlt
      have hbefore : dateLt tj.date a.date = true :=
        List.rel_of_pairwise_cons hp htj
      rw [List.filter_cons, if_neg (by simp [dateLt_asymm hbefore])]
      rw [ih (List.Pairwise.of_cons hp) j tj hj2]
      rfl

theorem sorted_split_at_cursor (l : List Txn) (hp : l.Pairwise txBefore)
    (c : DateT) :
    l = l.filter (fun t => !(dateLt t.date c)) ++
      l.filter (fun t => dateLt t.date c) := by
  induction l with
  | nil => rfl
  | cons a l ih =>
    by_cases hc : dateLt a.date c = true
    · have hall : ∀ x ∈ l, dateLt x.date c = true := by
        intro x hx
        exact dateLt_trans (List.rel_of_pairwise_cons hp hx) hc
      rw [List.filter_cons, if_neg (by simp [hc]),
        List.filter_cons, if_pos (by simp [hc])]
      rw [List.filter_eq_nil.mpr (fun x hx => by simp [hall x hx]),
        List.filter_eq_self.mpr (fun x hx => by simp [hall x hx])]
      rfl
    · have hcf : dateLt a.date c = false := by simpa using hc
      rw [List.filter_cons, if_pos (by simp [hcf]),
        List.filter_cons, if_neg (by simp [hcf])]
      exact (List.cons_append a _ _) ▸ congrArg (a :: ·)
        (ih (List.Pairwise.of_cons hp))

theorem getTxns_sorted_eq (store : List Txn) (chatId : String)
    (c : Option DateT)
    (hnd : ((store.filter (fun t => t.chatId = chatId)).map
      (fun t => t.date)).Nodup) :
    (match c with
     | some cd => (store.filter (fun (t : Txn) => t.chatId = chatId)).filter
         (fun (t : Txn) => dateLt t.date cd)
     | none => store.filter
         (fun (t : Txn) => t.chatId = chatId)).insertionSort txLe =
      remainingAfter store chatId c := by
  cases c with
  | none => rfl
  | some cd =>
    show ((store.filter (fun t => t.chatId = chatId)).filter
      (fun t => dateLt t.date cd)).insertionSort txLe = _
    rw [insertionSort_filter_comm _ _ hnd]
    rfl

theorem getTxns_last_page (store : List Txn) (chatId : String)
    (limit : Nat) (c : Option DateT)
    (hnd : ((store.filter (fun t => t.chatId = chatId)).map
      (fun t => t.date)).Nodup)
    (h : (remainingAfter store chatId c).length ≤ limit) :
    (getTxns store chatId none c limit).txns =
        remainingAfter store chatId c ∧
      (getTxns store chatId none c limit).hasMore = false := by
  have hs := getTxns_sorted_eq store chatId c hnd
  unfold getTxns
  cases c with
  | none =>
    dsimp only
    rw [show ((store.filter (fun t => t.chatId = chatId)).insertionSort
      txLe) = remainingAfter store chatId none from hs]
    have hfl : ((remainingAfter store chatId none).take
        (limit + 1)).length ≤ limit := by
      rw [List.length_take]
      omega
    have hnm : ¬ (limit < ((remainingAfter store chatId none).take
        (limit + 1)).length) := by omega
    refine ⟨?_, by exact decide_eq_false hnm⟩
    rw [if_neg hnm]
    exact List.take_of_length_le (le_trans h (Nat.le_succ limit))
  | some cd =>
    dsimp only
    rw [show ((store.filter (fun t => t.chatId = chatId)).filter
        (fun t => dateLt t.date cd)).insertionSort txLe =
      remainingAfter store chatId (some cd) from hs]
    have hfl : ((remainingAfter store chatId (some cd)).take
        (limit + 1)).length ≤ limit := by
      rw [List.length_take]
      omega
    have hnm : ¬ (limit < ((remainingAfter store chatId (some cd)).take
        (limit + 1)).length) := by omega
    refine ⟨?_, by exact decide_eq_false hnm⟩
    rw [if_neg hnm]
    exact List.take_of_length_le (le_trans h (Nat.le_succ limit))

theorem take_getLast? (l : List Txn) (limit : Nat) (hl : 0 < limit)
    (h : limit < l.length) (tj : Txn) (htj : l[limit - 1]? = some tj) :
    (l.take limit).getLast? = some tj := by
  rw [List.getLast?_eq_getElem?, List.length_take]
  have hmin : min limit l.length = limit := by omega
  rw [hmin, List.getElem?_take_of_lt (show limit - 1 < limit by omega)]
  exact htj

theorem getTxns_more_page (store : List Txn) (chatId : String)
    (limit : Nat) (c : Option DateT)
    (hnd : ((store.filter (fun t => t.chatId = chatId)).map
      (fun t => t.date)).Nodup)
    (hl : 0 < limit)
    (h : limit < (remainingAfter store chatId c).length)
    (tj : Txn)
    (htj : (remainingAfter store chatId c)[limit - 1]? = some tj) :
    (getTxns store chatId none c limit).txns =
        (remainingAfter store chatId c).take limit ∧
      (getTxns store chatId none c limit).hasMore = true ∧
      (getTxns store chatId none c limit).nextCursor = some tj.date := by
  have hs := getTxns_sorted_eq store chatId c hnd
  have hglast : ((remainingAfter store chatId c).take limit).getLast? =
      some tj := take_getLast? _ limit hl h tj htj
  have hne : (remainingAfter store chatId c).take limit ≠ [] := by
    intro hcontra
    rw [hcontra] at hglast
    simp at hglast
  unfold getTxns
  cases c with
  | none =>
    dsimp only
    rw [show ((store.filter (fun t => t.chatId = chatId)).insertionSort
      txLe) = remainingAfter store chatId none from hs]
    have hm : limit < ((remainingAfter store chatId none).take
        (limit + 1)).length := by
      rw [List.length_take]
      omega
    rw [List.take_take]
    have hmin : min limit (limit + 1) = limit := by omega
    rw [hmin]
    refine ⟨by rw [if_pos hm], by exact decide_eq_true hm, ?_⟩
    rw [if_pos hm, if_pos ⟨hm, hne⟩, hglast]
    rfl
  | some cd =>
    dsimp only
    rw [show ((store.filter (fun t => t.chatId = chatId)).filter
        (fun t => dateLt t.date cd)).insertionSort txLe =
      remainingAfter store chatId (some cd) from hs]
    have hm : limit < ((remainingAfter store chatId (some cd)).take
        (limit + 1)).length := by
      rw [List.length_take]
      omega
    rw [List.take_take]
    have hmin : min limit (limit + 1) = limit := by omega
    rw [hmin]
    refine ⟨by rw [if_pos hm], by exact decide_eq_true hm, ?_⟩
    rw [if_pos hm, if_pos ⟨hm, hne⟩, hglast]
    rfl

theorem remaining_pairwise (store : List Txn) (chatId : String)
    (c : Option DateT)
    (hnd : ((store.filter (fun t => t.chatId = chatId)).map
      (fun t => t.date)).Nodup) :
    (remainingAfter store chatId c).Pairwise txBefore := by
  have hndL : (((store.filter (fun t => t.chatId = chatId)).insertionSort
      txLe).map (fun t => t.date)).Nodup :=
    (((List.perm_insertionSort txLe _).map (fun t => t.date)).nodup_iff).mpr
      hnd
  have hLp := pairwise_txBefore_of_sorted _
    (List.sorted_insertionSort txLe
      (store.filter (fun t => t.chatId = chatId))) hndL
  cases c with
  | none => exact hLp
  | some cd => exact hLp.filter _

theorem remainingAfter_advance (store : List Txn) (chatId : String)
    (limit : Nat) (c : Option DateT)
    (hnd : ((store.filter (fun t => t.chatId = chatId)).map
      (fun t => t.date)).Nodup)
    (hl : 0 < limit)
    (h : limit < (remainingAfter store chatId c).length)
    (tj : Txn)
    (htj : (remainingAfter store chatId c)[limit - 1]? = some tj) :
    remainingAfter store chatId (some tj.date) =
      (remainingAfter store chatId c).drop limit := by
  have hRp := remaining_pairwise store chatId c hnd
  have hdrop := filter_lt_get _ hRp (limit - 1) tj htj
  have hfix : limit - 1 + 1 = limit := by omega
  rw [hfix] at hdrop
  cases c with
  | none => exact hdrop
  | some cd =>
    have htjR : tj ∈ remainingAfter store chatId (some cd) := by
      obtain ⟨hlt, hget⟩ := List.getElem?_eq_some.mp htj
      exact hget ▸ List.getElem_mem hlt
    have hcd : dateLt tj.date cd = true := by
      have := List.of_mem_filter htjR
      simpa using this
    show ((store.filter (fun t => t.chatId = chatId)).insertionSort
        txLe).filter (fun t => dateLt t.date tj.date) = _
    rw [← hdrop]
    rw [show remainingAfter store chatId (some cd) =
      ((store.filter (fun t => t.chatId = chatId)).insertionSort
        txLe).filter (fun t => dateLt t.date cd) from rfl,
      List.filter_filter]
    apply List.filter_congr
    intro x hx
    cases hxd : dateLt x.date tj.date with
    | false => simp
    | true => simp [dateLt_trans hxd hcd]

theorem paginateFrom_spec (store : List Txn) (chatId : String)
    (limit : Nat) (hl : 0 < limit)
    (hnd : ((store.filter (fun t => t.chatId = chatId)).map
      (fun t => t.date)).Nodup) :
    ∀ (fuel : Nat) (c : Option DateT),
      (remainingAfter store chatId c).length < fuel →
      paginateFrom store chatId limit c fuel =
        (remainingAfter store chatId c, true) := by
  intro fuel
  induction fuel with
  | zero => intro c hlen; omega
  | succ fuel ih =>
    intro c hlen
    by_cases hcase : limit < (remainingAfter store chatId c).length
    · obtain ⟨tj, htj⟩ : ∃ tj,
          (remainingAfter store chatId c)[limit - 1]? = some tj := by
        have hlt : limit - 1 < (remainingAfter store chatId c).length := by
          omega
        exact ⟨_, List.getElem?_eq_getElem hlt⟩
      obtain ⟨hp1, hp2, hp3⟩ :=
        getTxns_more_page store chatId limit c hnd hl hcase tj htj
      have hadv :=
        remainingAfter_advance store chatId limit c hnd hl hcase tj htj
      have hlen2 : (remainingAfter store chatId (some tj.date)).length
          < fuel := by
        rw [hadv, List.length_drop]
        omega
      have hrec := ih (some tj.date) hlen2
      show (let p := getTxns store chatId none c limit
            if p.hasMore then
              let rest := paginateFrom store chatId limit p.nextCursor fuel
              (p.txns ++ rest.1, rest.2)
            else (p.txns, true)) =
        (remainingAfter store chatId c, true)
      simp only [hp1, hp2, hp3, if_true]
      rw [hrec, hadv]
      simp [List.take_append_drop]
    · obtain ⟨hp1, hp2⟩ :=
        getTxns_last_page store chatId limit c hnd (by omega)
      show (let p := getTxns store chatId none c limit
            if p.hasMore then
              let rest := paginateFrom store chatId limit p.nextCursor fuel
              (p.txns ++ rest.1, rest.2)
            else (p.txns, true)) =
        (remainingAfter store chatId c, true)
      simp only [hp1, hp2, Bool.false_eq_true, if_false]

theorem paginateSteps_spec (store : List Txn) (chatId : String)
    (limit : Nat) (hl : 0 < limit)
    (hnd : ((store.filter (fun t => t.chatId = chatId)).map
      (fun t => t.date)).Nodup) :
    ∀ (k : Nat) (c : Option DateT) (out : List Txn) (c2 : DateT),
      paginateSteps store chatId limit c k = (out, some c2, false) →
      out ++ remainingAfter store chatId (some c2) =
        remainingAfter store chatId c := by
  intro k
  induction k with
  | zero =>
    intro c out c2 hstep
    simp only [paginateSteps, Prod.mk.injEq] at hstep
    obtain ⟨h1, h2, _⟩ := hstep
    rw [← h1, ← h2]
    rfl
  | succ k ih =>
    intro c out c2 hstep
    by_cases hcase : limit < (remainingAfter store chatId c).length
    · obtain ⟨tj, htj⟩ : ∃ tj,
          (remainingAfter store chatId c)[limit - 1]? = some tj := by
        have hlt : limit - 1 < (remainingAfter store chatId c).length := by
          omega
        exact ⟨_, List.getElem?_eq_getElem hlt⟩
      obtain ⟨hp1, hp2, hp3⟩ :=
        getTxns_more_page store chatId limit c hnd hl hcase tj htj
      have hadv :=
        remainingAfter_advance store chatId limit c hnd hl hcase tj htj
      simp only [paginateSteps, hp1, hp2, hp3, if_true,
        Prod.mk.injEq] at hstep
      obtain ⟨h1, h2, h3⟩ := hstep
      have heta : paginateSteps store chatId limit (some tj.date) k =
          ((paginateSteps store chatId limit (some tj.date) k).1,
            some c2, false) := by
        rw [← h2, ← h3]
      have hrec := ih (some tj.date)
        (paginateSteps store chatId limit (some tj.date) k).1 c2 heta
      rw [← h1, List.append_assoc, hrec, hadv, List.take_append_drop]
    · obtain ⟨hp1, hp2⟩ :=
        getTxns_last_page store chatId limit c hnd (by omega)
      simp only [paginateSteps, hp2, Bool.false_eq_true, if_false,
        Prod.mk.injEq] at hstep
      obtain ⟨_, h2, _⟩ := hstep
      exact absurd h2 (by simp)

/-- C5 (amended): for a chat whose transactions have pairwise-distinct
dates and a positive page limit, repeated cursor-paginated `getTxns`
fetches terminate (final fetch has `hasMore = false`, every earlier one
`hasMore = true` by construction of the loop) and return exactly the
chat's transactions, each exactly once, in `(date DESC, _id DESC)` order —
which on distinct dates is strictly descending date order; and if between
two fetches a new transaction dated strictly before the current cursor is
inserted, the items already returned plus the continuation of the run
yield exactly the final set of transactions, each exactly once, in the
same order.  (With duplicate dates the date-valued cursor loses items —
see the counterexample.) -/
theorem c5_cursor_pagination (store : List Txn) (chatId : String)
    (limit : Nat) (hl : 0 < limit) :
    (∀ fuel : Nat,
      ((store.filter (fun t => t.chatId = chatId)).map
        (fun t => t.date)).Nodup →
      (store.filter (fun t => t.chatId = chatId)).length < fuel →
      paginateFrom store chatId limit none fuel =
          ((store.filter (fun t => t.chatId = chatId)).insertionSort txLe,
            true) ∧
        ((store.filter (fun t => t.chatId = chatId)).insertionSort
          txLe).Perm (store.filter (fun t => t.chatId = chatId)) ∧
        ((store.filter (fun t => t.chatId = chatId)).insertionSort
          txLe).Pairwise txBefore) ∧
    (∀ (t0 : Txn) (k fuel : Nat) (out : List Txn) (c2 : DateT),
      (((t0 :: store).filter (fun t => t.chatId = chatId)).map
        (fun t => t.date)).Nodup →
      t0.chatId = chatId →
      ((t0 :: store).filter (fun t => t.chatId = chatId)).length < fuel →
      paginateSteps store chatId limit none k = (out, some c2, false) →
      dateLt t0.date c2 = true →
      out ++ (paginateFrom (t0 :: store) chatId limit (some c2) fuel).1 =
          ((t0 :: store).filter
            (fun t => t.chatId = chatId)).insertionSort txLe ∧
        (paginateFrom (t0 :: store) chatId limit (some c2) fuel).2
          = true) := by
  constructor
  · intro fuel hnd hfuel
    have hlen : (remainingAfter store chatId none).length < fuel := by
      show ((store.filter (fun t => t.chatId = chatId)).insertionSort
        txLe).length < fuel
      rw [(List.perm_insertionSort txLe _).length_eq]
      exact hfuel
    refine ⟨paginateFrom_spec store chatId limit hl hnd fuel none hlen,
      List.perm_insertionSort txLe _, ?_⟩
    exact remaining_pairwise store chatId none hnd
  · intro t0 k fuel out c2 hndF hchat hfuel hsteps hins
    have hFeq : (t0 :: store).filter (fun t => t.chatId = chatId) =
        t0 :: store.filter (fun t => t.chatId = chatId) :=
      List.filter_cons_of_pos (by simp [hchat])
    have hnd : ((store.filter (fun t => t.chatId = chatId)).map
        (fun t => t.date)).Nodup := by
      rw [hFeq] at hndF
      simp only [List.map_cons, List.nodup_cons] at hndF
      exact hndF.2
    have hout := paginateSteps_spec store chatId limit hl hnd k none out
      c2 hsteps
    have hLsplit := sorted_split_at_cursor _
      (remaining_pairwise store chatId none hnd) c2
    have houteq : out = (remainingAfter store chatId none).filter
        (fun t => !(dateLt t.date c2)) := by
      have hboth : out ++ (remainingAfter store chatId none).filter
          (fun t => dateLt t.date c2) =
          ((remainingAfter store chatId none).filter
            (fun t => !(dateLt t.date c2))) ++
            (remainingAfter store chatId none).filter
              (fun t => dateLt t.date c2) := by
        rw [← hLsplit]
        exact hout
      exact List.append_cancel_right hboth
    have hlen2 : (remainingAfter (t0 :: store) chatId (some c2)).length
        < fuel := by
      have h1 : (remainingAfter (t0 :: store) chatId (some c2)).length ≤
          (((t0 :: store).filter
            (fun t => t.chatId = chatId)).insertionSort txLe).length :=
        List.length_filter_le _ _
      rw [(List.perm_insertionSort txLe _).length_eq] at h1
      omega
    have hcont := paginateFrom_spec (t0 :: store) chatId limit hl hndF
      fuel (some c2) hlen2
    rw [hcont]
    refine ⟨?_, rfl⟩
    have hLsplit2 := sorted_split_at_cursor _
      (remaining_pairwise (t0 :: store) chatId none hndF) c2
    have hsame : (remainingAfter store chatId none).filter
        (fun t => !(dateLt t.date c2)) =
        (remainingAfter (t0 :: store) chatId none).filter
          (fun t => !(dateLt t.date c2)) := by
      have hperm1 : ((remainingAfter store chatId none).filter
          (fun t => !(dateLt t.date c2))).Perm
          ((store.filter (fun t => t.chatId = chatId)).filter
            (fun t => !(dateLt t.date c2))) :=
        (List.perm_insertionSort txLe _).filter _
      have hdrop0 : ((t0 :: store.filter (fun t => t.chatId = chatId)
          ).filter (fun t => !(dateLt t.date c2))) =
          (store.filter (fun t => t.chatId = chatId)).filter
            (fun t => !(dateLt t.date c2)) :=
        List.filter_cons_of_neg (by simp [hins])
      have hperm2 : ((remainingAfter (t0 :: store) chatId none).filter
          (fun t => !(dateLt t.date c2))).Perm
          ((store.filter (fun t => t.chatId = chatId)).filter
            (fun t => !(dateLt t.date c2))) := by
        have hA := (List.perm_insertionSort txLe
          ((t0 :: store).filter (fun t => t.chatId = chatId))).filter
          (fun t => !(dateLt t.date c2))
        have hB : ((t0 :: store).filter
            (fun t => t.chatId = chatId)).filter
            (fun t => !(dateLt t.date c2)) =
            (store.filter (fun t => t.chatId = chatId)).filter
              (fun t => !(dateLt t.date c2)) := by
          rw [hFeq]
          exact hdrop0
        rw [hB] at hA
        exact hA
      exact List.eq_of_perm_of_sorted (hperm1.trans hperm2.symm)
        ((remaining_pairwise store chatId none hnd).filter _)
        ((remaining_pairwise (t0 :: store) chatId none hndF).filter _)
    show out ++ (remainingAfter (t0 :: store) chatId none).filter
      (fun t => dateLt t.date c2) =
      remainingAfter (t0 :: store) chatId none
    rw [houteq, hsame, ← hLsplit2]

/-- C5 counterexample: two transactions share the same date; with page
limit 1 the date-valued cursor (`date < cursor`) excludes the second one,
so the run terminates having yielded 1 of the 2 transactions — not "each
transaction exactly once". -/
theorem c5_counterexample :
    (paginateFrom
        [{ id := 1, chatId := "cccccccccccccccccccccccc", amount := 10
           date := DateT.mk 2025 10 5, remarks := none
           toU := "bbbbbbbbbbbbbbbbbbbbbbbb"
           fromU := "aaaaaaaaaaaaaaaaaaaaaaaa"
           addedBy := "aaaaaaaaaaaaaaaaaaaaaaaa", verified := false
           verifiedBy := none, verifiedAt := none },
         { id := 2, chatId := "cccccccccccccccccccccccc", amount := 20
           date := DateT.mk 2025 10 5, remarks := none
           toU := "bbbbbbbbbbbbbbbbbbbbbbbb"
           fromU := "aaaaaaaaaaaaaaaaaaaaaaaa"
           addedBy := "aaaaaaaaaaaaaaaaaaaaaaaa", verified := false
           verifiedBy := none, verifiedAt := none }]
        "cccccccccccccccccccccccc" 1 none 5).2 = true ∧
    (paginateFrom
        [{ id := 1, chatId := "cccccccccccccccccccccccc", amount := 10
           date := DateT.mk 2025 10 5, remarks := none
           toU := "bbbbbbbbbbbbbbbbbbbbbbbb"
           fromU := "aaaaaaaaaaaaaaaaaaaaaaaa"
           addedBy := "aaaaaaaaaaaaaaaaaaaaaaaa", verified := false
           verifiedBy := none, verifiedAt := none },
         { id := 2, chatId := "cccccccccccccccccccccccc", amount := 20
           date := DateT.mk 2025 10 5, remarks := none
           toU := "bbbbbbbbbbbbbbbbbbbbbbbb"
           fromU := "aaaaaaaaaaaaaaaaaaaaaaaa"
           addedBy := "aaaaaaaaaaaaaaaaaaaaaaaa", verified := false
           verifiedBy := none, verifiedAt := none }]
        "cccccccccccccccccccccccc" 1 none 5).1.length = 1 ∧
    ([({ id := 1, chatId := "cccccccccccccccccccccccc", amount := 10
         date := DateT.mk 2025 10 5, remarks := none
         toU := "bbbbbbbbbbbbbbbbbbbbbbbb"
         fromU := "aaaaaaaaaaaaaaaaaaaaaaaa"
         addedBy := "aaaaaaaaaaaaaaaaaaaaaaaa", verified := false
         verifiedBy := none, verifiedAt := none } : Txn),
       { id := 2, chatId := "cccccccccccccccccccccccc", amount := 20
         date := DateT.mk 2025 10 5, remarks := none
         toU := "bbbbbbbbbbbbbbbbbbbbbbbb"
         fromU := "aaaaaaaaaaaaaaaaaaaaaaaa"
         addedBy := "aaaaaaaaaaaaaaaaaaaaaaaa", verified := false
         verifiedBy := none, verifiedAt := none }].filter
      (fun t => t.chatId = "cccccccccccccccccccccccc")).length = 2 := by
  refine ⟨rfl, rfl, rfl⟩

theorem c5_witness :
    (0 < 1) ∧
    (([({ id := 0, chatId := "cccccccccccccccccccccccc", amount := 10
          date := DateT.mk 2025 10 5, remarks := none
          toU := "bbbbbbbbbbbbbbbbbbbbbbbb"
          fromU := "aaaaaaaaaaaaaaaaaaaaaaaa"
          addedBy := "aaaaaaaaaaaaaaaaaaaaaaaa", verified := false
          verifiedBy := none, verifiedAt := none } : Txn),
        { id := 1, chatId := "cccccccccccccccccccccccc", amount := 20
          date := DateT.mk 2025 10 3, remarks := none
          toU := "bbbbbbbbbbbbbbbbbbbbbbbb"
          fromU := "aaaaaaaaaaaaaaaaaaaaaaaa"
          addedBy := "aaaaaaaaaaaaaaaaaaaaaaaa", verified := false
          verifiedBy := none, verifiedAt := none }].filter
        (fun t => t.chatId = "cccccccccccccccccccccccc")).map
      (fun t => t.date)).Nodup ∧
    paginateFrom
        [{ id := 0, chatId := "cccccccccccccccccccccccc", amount := 10
           date := DateT.mk 2025 10 5, remarks := none
           toU := "bbbbbbbbbbbbbbbbbbbbbbbb"
           fromU := "aaaaaaaaaaaaaaaaaaaaaaaa"
           addedBy := "aaaaaaaaaaaaaaaaaaaaaaaa", verified := false
           verifiedBy := none, verifiedAt := none },
         { id := 1, chatId := "cccccccccccccccccccccccc", amount := 20
           date := DateT.mk 2025 10 3, remarks := none
           toU := "bbbbbbbbbbbbbbbbbbbbbbbb"
           fromU := "aaaaaaaaaaaaaaaaaaaaaaaa"
           addedBy := "aaaaaaaaaaaaaaaaaaaaaaaa", verified := false
           verifiedBy := none, verifiedAt := none }]
        "cccccccccccccccccccccccc" 1 none 4 =
      (([({ id := 0, chatId := "cccccccccccccccccccccccc", amount := 10
            date := DateT.mk 2025 10 5, remarks := none
            toU := "bbbbbbbbbbbbbbbbbbbbbbbb"
            fromU := "aaaaaaaaaaaaaaaaaaaaaaaa"
            addedBy := "aaaaaaaaaaaaaaaaaaaaaaaa", verified := false
            verifiedBy := none, verifiedAt := none } : Txn),
          { id := 1, chatId := "cccccccccccccccccccccccc", amount := 20
            date := DateT.mk 2025 10 3, remarks := none
            toU := "bbbbbbbbbbbbbbbbbbbbbbbb"
            fromU := "aaaaaaaaaaaaaaaaaaaaaaaa"
            addedBy := "aaaaaaaaaaaaaaaaaaaaaaaa", verified := false
            verifiedBy := none, verifiedAt := none }].filter
          (fun t => t.chatId = "cccccccccccccccccccccccc")).insertionSort
        txLe, true) := by
  refine ⟨by decide, by decide, ?_⟩
  exact ((c5_cursor_pagination
    [{ id := 0, chatId := "cccccccccccccccccccccccc", amount := 10
       date := DateT.mk 2025 10 5, remarks := none
       toU := "bbbbbbbbbbbbbbbbbbbbbbbb"
       fromU := "aaaaaaaaaaaaaaaaaaaaaaaa"
       addedBy := "aaaaaaaaaaaaaaaaaaaaaaaa", verified := false
       verifiedBy := none, verifiedAt := none },
     { id := 1, chatId := "cccccccccccccccccccccccc", amount := 20
       date := DateT.mk 2025 10 3, remarks := none
       toU := "bbbbbbbbbbbbbbbbbbbbbbbb"
       fromU := "aaaaaaaaaaaaaaaaaaaaaaaa"
       addedBy := "aaaaaaaaaaaaaaaaaaaaaaaa", verified := false
       verifiedBy := none, verifiedAt := none }]
    "cccccccccccccccccccccccc" 1 (by decide)).1 4 (by decide)
    (by decide)).1
